import Mathlib

/-!
# hems-metrics-go: telemetry decode, windowed delta and join handshake

A shallow embedding of the parts of `dongle/dongle.go`, `dongle/dongle_util.go`,
`model/model.go`, `controller/HemsDataController.go` and
`controller/MetricsController.go` that the properties below talk about.

Conventions of the embedding:

* a Go `string` is a sequence of bytes; it is a `List Char` here, one `Char`
  per byte;
* a Go run-time panic (slice bounds out of range, nil dereference) is an
  explicit outcome, never an exception of the host language;
* `float32` / `float64` values are IEEE-754 binary32 / binary64 values, a
  finite one held exactly as `m * 2 ^ e`, every operation rounding to nearest,
  ties to even; the two zeros are not distinguished;
* Go's `int` has 64 bits (the size `strconv` takes for the bit size `0`);
* the `for` loop of the property walk is a step function iterated under a fuel
  bound, so that a walk that never ends is visible as such;
* the callback handed to `Fetch` is not run inside `Fetch`: a run of `Fetch`
  yields the list of the arguments it calls the callback with;
* what the serial line and the external libraries deliver (the lines read, the
  errors of `Write` and `OpenPort`, `time.Now()`, the schedule's `Next`) is an
  argument of the function that uses it;
* the control loop of `doCollect` is a transition system on its variables, its
  two channels, the ticker and the clock: an event takes one ready case of the
  `select` (any ready one may be taken), lets time pass, or lets the `Fetch`
  of a goroutine return; the context of the session is never cancelled from
  outside.
-/

namespace Hems

/-! ## Go strings -/

/-- A Go string: a sequence of bytes. -/
abbrev GoString := List Char

/-- The Go slice expression `s[lo:hi]` on a string: `none` stands for the
run-time panic "slice bounds out of range". -/
def goSlice (s : GoString) (lo hi : Nat) : Option GoString :=
  if lo ≤ hi ∧ hi ≤ s.length then some ((s.drop lo).take (hi - lo)) else none

/-- Worker of `splitSpace`: `cur` is the field being read, in reverse. -/
def splitSpaceAux : GoString → GoString → List GoString
  | [], cur => [cur.reverse]
  | c :: cs, cur =>
    if c = ' ' then cur.reverse :: splitSpaceAux cs [] else splitSpaceAux cs (c :: cur)

/-- The call `strings.Split(r, " ")`: the fields between single spaces. -/
def splitSpace (r : GoString) : List GoString := splitSpaceAux r []

/-! ## strconv -/

/-- Value of one digit character as `strconv.ParseUint` reads it (before the
comparison with the base). -/
def digitVal (c : Char) : Option Nat :=
  if '0' ≤ c ∧ c ≤ '9' then some (c.toNat - '0'.toNat)
  else if 'a' ≤ c ∧ c ≤ 'z' then some (c.toNat - 'a'.toNat + 10)
  else if 'A' ≤ c ∧ c ≤ 'Z' then some (c.toNat - 'A'.toNat + 10)
  else none

/-- Digit loop of `strconv.ParseUint`, without the range check: `none` is a
syntax error (a character that is no digit of the base). -/
def parseDigits (base : Nat) : GoString → Nat → Option Nat
  | [], acc => some acc
  | c :: cs, acc =>
    match digitVal c with
    | some d => if d < base then parseDigits base cs (acc * base + d) else none
    | none => none

/-- The bit size `strconv` works with: `0` means the size of `int` (64). -/
def effBits (bitSize : Nat) : Nat := if bitSize = 0 then 64 else bitSize

/-- The call `strconv.ParseUint(s, base, bitSize)`; `none` is a non-nil `err`
(syntax error on an empty string or a bad digit, range error on overflow). -/
def ParseUint (s : GoString) (base bitSize : Nat) : Option Nat :=
  if s = [] then none
  else match parseDigits base s 0 with
    | some v => if v < 2 ^ effBits bitSize then some v else none
    | none => none

/-- The call `strconv.ParseInt(s, base, bitSize)`; `none` is a non-nil `err`.
An optional sign is followed by the digits; the magnitude must fit the signed
range of `bitSize` bits, otherwise the call fails with a range error. -/
def ParseInt (s : GoString) (base bitSize : Nat) : Option Int :=
  match s with
  | [] => none
  | c :: cs =>
    let neg := c = '-'
    let body := if c = '+' ∨ c = '-' then cs else c :: cs
    if body = [] then none
    else match parseDigits base body 0 with
      | none => none
      | some un =>
        let cutoff := 2 ^ (effBits bitSize - 1)
        if neg then (if un ≤ cutoff then some (-(un : Int)) else none)
        else (if un < cutoff then some (un : Int) else none)

/-! ## Floating point -/

/-- An IEEE-754 value: a finite number `m * 2 ^ e` (held exactly, with `m` odd,
or `m = 0` and `e = 0`), an infinity or NaN. -/
inductive Flt where
  | fin (m : Int) (e : Int)
  | inf (neg : Bool)
  | nan
  deriving DecidableEq

/-- The real number a value stands for: `m * 2 ^ e` for a finite one, none
for an infinity or NaN. -/
def Flt.toRat : Flt → Option ℚ
  | .fin m e => some ((m : ℚ) * (2 : ℚ) ^ e)
  | _ => none

/-- A binary floating-point format: precision in bits, least and greatest
exponent of a normal number. -/
structure Fmt where
  prec : Nat
  emin : Int
  emax : Int

/-- Format of Go's `float32`. -/
def binary32 : Fmt := ⟨24, -126, 127⟩

/-- Format of Go's `float64`. -/
def binary64 : Fmt := ⟨53, -1022, 1023⟩

/-- Floor of the binary logarithm of `n` (and `0` for `n = 0`); the first
argument bounds the number of halvings and is at least `n` at every use. -/
def log2Nat : Nat → Nat → Nat
  | 0, _ => 0
  | fuel + 1, n => if n < 2 then 0 else log2Nat fuel (n / 2) + 1

/-- Binary exponent of the positive rational `a / d`: the `l` with
`2^l ≤ a / d < 2^(l+1)`. -/
def ilog2 (a d : Nat) : Int :=
  let c : Int := (log2Nat a a : Int) - (log2Nat d d : Int)
  let ge : Bool := if 0 ≤ c then decide (d * 2 ^ c.toNat ≤ a) else decide (d ≤ a * 2 ^ (-c).toNat)
  if ge then c else c - 1

/-- Nearest natural number to `a / d`, ties to the even one. -/
def roundHalfEven (a d : Nat) : Nat :=
  let k := a / d
  let r := a % d
  if 2 * r < d then k
  else if d < 2 * r then k + 1
  else if k % 2 = 0 then k else k + 1

/-- Canonical form of `k * 2 ^ q` for `k > 0`: factors of two are moved from
`k` to the exponent (the first argument bounds their number). -/
def normalize : Nat → Nat → Int → Nat × Int
  | 0, k, q => (k, q)
  | fuel + 1, k, q => if k % 2 = 0 ∧ k ≠ 0 then normalize fuel (k / 2) (q + 1) else (k, q)

/-- Round the real number `n / d` (`d > 0`) to the format, to nearest, ties to
even; a result beyond the largest finite number becomes an infinity. -/
def Fmt.round (F : Fmt) (n : Int) (d : Nat) : Flt :=
  if n = 0 then .fin 0 0
  else
    let a := n.natAbs
    let l := ilog2 a d
    let e := if l < F.emin then F.emin else l
    let q : Int := e - ((F.prec : Int) - 1)
    let k := if 0 ≤ q then roundHalfEven a (d * 2 ^ q.toNat) else roundHalfEven (a * 2 ^ (-q).toNat) d
    if k = 0 then .fin 0 0
    else if F.emax < (log2Nat k k : Int) + q then .inf (decide (n < 0))
    else
      let kq := normalize k k q
      .fin (if n < 0 then -(kq.1 : Int) else (kq.1 : Int)) kq.2

/-- Round the real number `m * 2 ^ e` to the format. -/
def Fmt.roundDyadic (F : Fmt) (m e : Int) : Flt :=
  if 0 ≤ e then F.round (m * 2 ^ e.toNat) 1 else F.round m (2 ^ (-e).toNat)

/-- Conversion of a float of another width to the format. -/
def Fmt.ofFlt (F : Fmt) : Flt → Flt
  | .fin m e => F.roundDyadic m e
  | x => x

/-- Conversion of an integer to the format. -/
def Fmt.ofInt (F : Fmt) (n : Int) : Flt := F.round n 1

/-- Floating-point multiplication in the format. -/
def Fmt.mul (F : Fmt) : Flt → Flt → Flt
  | .fin a ea, .fin b eb => F.roundDyadic (a * b) (ea + eb)
  | .fin a _, .inf n => if a = 0 then .nan else .inf (xor n (decide (a < 0)))
  | .inf n, .fin b _ => if b = 0 then .nan else .inf (xor n (decide (b < 0)))
  | .inf n, .inf m => .inf (xor n m)
  | _, _ => .nan

/-- Floating-point subtraction in the format. -/
def Fmt.sub (F : Fmt) : Flt → Flt → Flt
  | .fin a ea, .fin b eb =>
    let e := if ea ≤ eb then ea else eb
    F.roundDyadic (a * 2 ^ (ea - e).toNat - b * 2 ^ (eb - e).toNat) e
  | .fin _ _, .inf n => .inf (!n)
  | .inf n, .fin _ _ => .inf n
  | .inf n, .inf m => if n = m then .nan else .inf n
  | _, _ => .nan

/-- Floating-point division in the format (a zero divisor is taken as `+0`,
the only zero the program divides by). -/
def Fmt.div (F : Fmt) : Flt → Flt → Flt
  | .fin a ea, .fin b eb =>
    if b = 0 then (if a = 0 then .nan else .inf (decide (a < 0)))
    else
      let s : Int := if b < 0 then -1 else 1
      let e := ea - eb
      if 0 ≤ e then F.round (s * a * 2 ^ e.toNat) b.natAbs
      else F.round (s * a) (b.natAbs * 2 ^ (-e).toNat)
  | .fin _ _, .inf _ => .fin 0 0
  | .inf n, .fin b _ => .inf (xor n (decide (b < 0)))
  | _, _ => .nan

/-- The call `math.Round(x)`: nearest integer, halves away from zero;
infinities and NaN are returned unchanged. -/
def mathRound : Flt → Flt
  | .fin m e =>
    if 0 ≤ e then .fin m e
    else
      let d : Nat := 2 ^ (-e).toNat
      let k : Nat := (2 * m.natAbs + d) / (2 * d)
      binary64.ofInt (if m < 0 then -(k : Int) else (k : Int))
  | x => x

/-- The decimal constant `n / d` converted to `float32`. -/
def f32 (n : Int) (d : Nat) : Flt := binary32.round n d

/-- The decimal constant `n / d` converted to `float64`. -/
def f64 (n : Int) (d : Nat) : Flt := binary64.round n d

/-! ## model/model.go -/

/-- An instant of time (`time.Time`), as a count of nanoseconds. -/
abbrev Time := Int

/-- Go's `int` on the 64-bit targets the program runs on: the result of an
arithmetic operation wraps around. -/
def wrapInt (n : Int) : Int := (n + 2 ^ 63) % 2 ^ 64 - 2 ^ 63

/-- One telemetry sample (`model.HemsData`). -/
structure HemsData where
  DateTime : Time
  CumulativePowerConsumption : Flt
  PowerConsumptionPerUnitTime : Flt
  InstantaneousPowerConsumption : Int
  Current : Flt
  RphaseCurrent : Flt
  TpahseCurrent : Flt
  PowerFactor : Flt
  deriving DecidableEq

/-- The constructor `model.CreateHemsData`; the field it does not mention,
`PowerConsumptionPerUnitTime`, has Go's zero value. -/
def CreateHemsData (dateTime : Time) (cpc : Flt) (ipc rCurrent tCurrent : Int) : HemsData :=
  { DateTime := dateTime
    CumulativePowerConsumption := cpc
    PowerConsumptionPerUnitTime := .fin 0 0
    InstantaneousPowerConsumption := ipc
    Current := binary32.mul (binary32.ofInt (wrapInt (rCurrent + tCurrent))) (f32 1 10)
    RphaseCurrent := binary32.mul (binary32.ofInt rCurrent) (f32 1 10)
    TpahseCurrent := binary32.mul (binary32.ofInt tCurrent) (f32 1 10)
    PowerFactor :=
      binary32.ofFlt
        (binary64.mul
          (mathRound
            (binary64.div
              (binary64.mul (binary64.ofInt ipc) (f64 1000 1))
              (binary64.mul (f64 10 1) (binary64.ofInt (wrapInt (rCurrent + tCurrent))))))
          (f64 1 10)) }

/-! ## dongle/dongle_util.go: Fetch -/

/-- The local variables of the property walk in `Fetch`. -/
structure WalkState where
  pos : Nat
  sigdigit : Int
  unitnum : Flt
  cumulative_power_consumption_base : Int
  instantaneous_power_consumption : Int
  instantaneous_current_r_phase : Int
  instantaneous_current_t_phase : Int
  deriving DecidableEq

/-- The values of the locals before the first iteration. -/
def WalkState.init : WalkState :=
  { pos := 24
    sigdigit := 0
    unitnum := f32 1 1
    cumulative_power_consumption_base := 0
    instantaneous_power_consumption := 0
    instantaneous_current_r_phase := 0
    instantaneous_current_t_phase := 0 }

/-- The `E1` branch: the unit table; an unknown code leaves `unitnum` as it is. -/
def unitOf (edt : GoString) (old : Flt) : Flt :=
  if edt = "00".toList then f32 1 1
  else if edt = "01".toList then f32 1 10
  else if edt = "02".toList then f32 1 100
  else if edt = "03".toList then f32 1 1000
  else if edt = "04".toList then f32 1 10000
  else if edt = "0A".toList then f32 10 1
  else if edt = "0B".toList then f32 100 1
  else if edt = "0C".toList then f32 1000 1
  else if edt = "0D".toList then f32 10000 1
  else old

/-- The part of the loop body after the cursor has moved: the dispatch on the
property code `epc` with payload `edt`. -/
def applyProperty (epc edt : GoString) (s : WalkState) : WalkState :=
  if epc = "D7".toList then
    match ParseInt edt 16 0 with
    | none => s
    | some tmp => { s with sigdigit := tmp }
  else if epc = "E1".toList then
    { s with unitnum := unitOf edt s.unitnum }
  else if epc = "E0".toList then
    match ParseInt edt 16 0 with
    | none => s
    | some tmp => { s with cumulative_power_consumption_base := tmp }
  else if epc = "E7".toList then
    match ParseInt edt 16 0 with
    | none => s
    | some tmp => { s with instantaneous_power_consumption := tmp }
  else if epc = "E8".toList then
    let s1 :=
      match ParseInt (edt.take (edt.length / 2)) 16 16 with
      | none => s
      | some tmp => { s with instantaneous_current_r_phase := tmp }
    match ParseInt (edt.drop (edt.length / 2)) 16 16 with
    | none => s1
    | some tmp => { s1 with instantaneous_current_t_phase := tmp }
  else s

/-- One iteration of the loop `for pos < len(res)` (the caller has checked the
loop condition). `none` is a run-time panic of one of the three slice
expressions; when the length byte does not parse, the body ends at `continue`
with every local unchanged. -/
def walkStep (res : GoString) (s : WalkState) : Option WalkState :=
  match goSlice res s.pos (s.pos + 2) with
  | none => none
  | some epc =>
    match goSlice res (s.pos + 2) (s.pos + 4) with
    | none => none
    | some pdc =>
      match ParseUint pdc 16 0 with
      | none => some s
      | some datalen =>
        match goSlice res (s.pos + 4) (s.pos + 4 + datalen * 2) with
        | none => none
        | some edt => some (applyProperty epc edt { s with pos := s.pos + 4 + datalen * 2 })

/-- How a run of the loop ends. -/
inductive WalkOutcome where
  | done (s : WalkState)
  | panicked
  | outOfFuel
  deriving DecidableEq

/-- The loop `for pos < len(res) { ... }`, run for at most `fuel` iterations. -/
def propertyWalk : Nat → GoString → WalkState → WalkOutcome
  | 0, _, _ => .outOfFuel
  | fuel + 1, res, s =>
    if s.pos < res.length then
      match walkStep res s with
      | none => .panicked
      | some s1 => propertyWalk fuel res s1
    else .done s

/-- The errors `Fetch` can return. -/
inductive FetchError where
  | send (msg : String)
  | invalidLength (n : Nat)
  deriving DecidableEq

/-- How a call of `Fetch` ends: it returns, after the calls `calls` of the
callback `f` (in order; `none` is `f(nil)`), with `err`; or it panics; or the
walk has not ended within the fuel. -/
inductive FetchOutcome where
  | returned (calls : List (Option HemsData)) (err : Option FetchError)
  | panicked
  | outOfFuel
  deriving DecidableEq

/-- The method `DongleUtil.Fetch`. `r` and `sendErr` are what `SKSENDTO`
returned, `ctxDone` tells whether `ctx.Done()` is ready when the `select` is
reached, `now` is the value of `time.Now()`. -/
def Fetch (fuel : Nat) (r : GoString) (sendErr : Option String) (ctxDone : Bool) (now : Time) :
    FetchOutcome :=
  match sendErr with
  | some e => .returned [none] (some (.send e))
  | none =>
    let a := splitSpace r
    if a.length ≠ 9 then .returned [none] (some (.invalidLength a.length))
    else if a.getD 7 [] ≠ "0024".toList then .returned [none] none
    else
      let res := a.getD 8 []
      match goSlice res 8 (8 + 6) with
      | none => .panicked
      | some seoj =>
        match goSlice res 20 (20 + 2) with
        | none => .panicked
        | some ESV =>
          if seoj = "028801".toList ∧ ESV = "72".toList then
            match propertyWalk fuel res WalkState.init with
            | .panicked => .panicked
            | .outOfFuel => .outOfFuel
            | .done s =>
              let cumulative_power_consumption :=
                binary32.mul (binary32.ofInt s.cumulative_power_consumption_base) s.unitnum
              let result := CreateHemsData now cumulative_power_consumption
                s.instantaneous_power_consumption
                s.instantaneous_current_r_phase s.instantaneous_current_t_phase
              if ctxDone then .returned [none] none else .returned [some result] none
          else .returned [none] none

/-! ## controller/MetricsController.go -/

/-- The five exported gauges of `MetricsController`, each holding a `float64`. -/
structure MetricsController where
  cumulativePowerConsumption : Flt
  powerConsumptionPerUnitTime : Flt
  instantaneousPowerConsumption : Flt
  current : Flt
  powerFactor : Flt
  deriving DecidableEq

/-- The method `MetricsController.Update`: a nil sample changes nothing. -/
def MetricsController.Update (c : MetricsController) (model : Option HemsData) :
    MetricsController :=
  match model with
  | some m =>
    { cumulativePowerConsumption := binary64.ofFlt m.CumulativePowerConsumption
      powerConsumptionPerUnitTime := binary64.ofFlt m.PowerConsumptionPerUnitTime
      instantaneousPowerConsumption := binary64.ofInt m.InstantaneousPowerConsumption
      current := binary64.ofFlt m.Current
      powerFactor := binary64.ofFlt m.PowerFactor }
  | none => c

/-! ## controller/HemsDataController.go -/

/-- The fields of `HemsDataController` that `HemsDataHandler` reads or writes.
`hemsDataHandler` is the registered handler: `none` when nothing is
registered, otherwise the gauges that `MetricsController.Update`, the handler
`main` registers, writes to. -/
structure HemsDataController where
  previousData : Option HemsData
  nextCronTime : Time
  hemsDataHandler : Option MetricsController
  deriving DecidableEq

/-- The method `HemsDataController.HemsDataHandler`. `cronNext` is
`cronexpr.MustParse(cronUnitTime).Next`; `result` is the pointer argument
(`none` is nil). The value is the controller afterwards, together with the
sample as the method leaves it; `none` is the run-time panic of a nil pointer
dereference. -/
def HemsDataHandler (cronNext : Time → Time) (controller : HemsDataController)
    (result : Option HemsData) : Option (HemsDataController × HemsData) :=
  match controller.previousData with
  | none =>
    -- `controller.previousData = result`, then `result.CumulativePowerConsumption`
    -- is read for the log line
    match result with
    | none => none
    | some res =>
      let c1 := { controller with previousData := some res }
      some ({ c1 with hemsDataHandler := c1.hemsDataHandler.map (·.Update (some res)) }, res)
  | some prev =>
    -- `result.DateTime.After(controller.nextCronTime)` reads `result.DateTime`
    match result with
    | none => none
    | some res =>
      if controller.nextCronTime < res.DateTime then
        let res1 := { res with
          PowerConsumptionPerUnitTime :=
            binary32.sub res.CumulativePowerConsumption prev.CumulativePowerConsumption }
        let c1 := { controller with
          previousData := some res1
          nextCronTime := cronNext res.DateTime }
        some ({ c1 with hemsDataHandler := c1.hemsDataHandler.map (·.Update (some res1)) }, res1)
      else
        let res1 := { res with PowerConsumptionPerUnitTime := prev.PowerConsumptionPerUnitTime }
        some ({ controller with
          hemsDataHandler := controller.hemsDataHandler.map (·.Update (some res1)) }, res1)

/-! ## dongle/dongle.go -/

/-- The serial port as one command sees it: the error `Port.Write` returns
(`none` is success) and the lines the scanner yields afterwards, until `Scan`
reports that the read has ended. -/
structure Port where
  writeErr : Option String
  lines : List GoString

/-- The method `Dongle.write`. -/
def Dongle.write (port : Port) (_s : GoString) : Option String :=
  match port.writeErr with
  | some err => some err
  | none => none

/-- The loop of `readUntilOK`: every line is appended to `reply`; the loop
ends after the line `OK`, or when there is no further line. -/
def readUntilOKLoop : List GoString → List GoString → List GoString
  | [], reply => reply
  | l :: ls, reply =>
    if l = "OK".toList then reply ++ [l] else readUntilOKLoop ls (reply ++ [l])

/-- The method `Dongle.readUntilOK`: its second result, the error, is the
constant `nil` of the final `return reply, nil`. -/
def Dongle.readUntilOK (port : Port) : List GoString × Option String :=
  (readUntilOKLoop port.lines [], none)

/-- The method `Dongle.SKSREG`; the value is the returned error (`none` is
nil, success). -/
def Dongle.SKSREG (port : Port) (k v : GoString) : Option String :=
  match Dongle.write port ("SKSREG ".toList ++ k ++ " ".toList ++ v ++ "\r\n".toList) with
  | some err => some err
  | none =>
    match (Dongle.readUntilOK port).2 with
    | some err => some err
    | none => none

/-- The scan result `PAN`. -/
structure PAN where
  Channel : GoString
  ChannelPage : GoString
  PanID : GoString
  Addr : GoString
  LQI : GoString
  PairID : GoString
  deriving DecidableEq

/-- What the device and the serial line determine for a run of `doInit`: the
error of `serial.OpenPort` (`none` is nil: the port is opened) and, for a port
that is open, what the later calls return. -/
structure DongleCalls where
  OpenPort : Option String
  SKVER : GoString × Option String
  SKSETPWD : GoString → Option String
  SKSETRBID : GoString → Option String
  SKSCAN : Int → Except String PAN
  SKSREG : GoString → GoString → Option String
  SKLL64 : GoString → GoString × Option String
  SKJOIN : GoString → Option String

/-- The method `Dongle.Connect`: whether the field `Port` holds a port
afterwards (it is assigned only when `serial.OpenPort` succeeded and is nil
otherwise), and the returned error. -/
def Dongle.Connect (d : DongleCalls) : Bool × Option String :=
  match d.OpenPort with
  | some err => (false, some err)
  | none => (true, none)

/-- The steps of the join handshake. -/
inductive Step where
  | connect | version | setPassword | setRouteId | scan
  | programChannel | programPanId | resolveAddress | join
  deriving DecidableEq

/-- How a run of `doInit` ends: it returns an error (`none` is nil), or it
panics. -/
inductive InitOutcome where
  | returned (err : Option String)
  | panicked
  deriving DecidableEq

/-- What a run of `doInit` does: the steps it entered, in order, how it ended
and the value left in `du.ipv6addr`. -/
structure InitRun where
  steps : List Step
  outcome : InitOutcome
  ipv6addr : GoString
  deriving DecidableEq

/-- The method `DongleUtil.doInit` (`ipv6addr` is the field's value before the
call). The value of `d.Connect()` is not bound to anything, so the run goes on
to `d.SKVER()` also when the port was not opened; `SKVER` starts with
`b.Port.Write`, which on the nil `Port` is a nil dereference: a panic. -/
def doInit (d : DongleCalls) (ipv6addr : GoString) (pwd rbID : GoString) (duration : Int) :
    InitRun :=
  -- `d.Connect()`: the returned error is dropped
  let port := (Dongle.Connect d).1
  let t1 := [Step.connect]
  -- v, err := d.SKVER()
  let t2 := t1 ++ [Step.version]
  if port = false then ⟨t2, .panicked, ipv6addr⟩
  else
  match d.SKVER.2 with
  | some err => ⟨t2, .returned (some err), ipv6addr⟩
  | none =>
    let t3 := t2 ++ [Step.setPassword]
    match d.SKSETPWD pwd with
    | some err => ⟨t3, .returned (some err), ipv6addr⟩
    | none =>
      let t4 := t3 ++ [Step.setRouteId]
      match d.SKSETRBID rbID with
      | some err => ⟨t4, .returned (some err), ipv6addr⟩
      | none =>
        let t5 := t4 ++ [Step.scan]
        match d.SKSCAN duration with
        | .error err => ⟨t5, .returned (some err), ipv6addr⟩
        | .ok pan =>
          let t6 := t5 ++ [Step.programChannel]
          match d.SKSREG "S2".toList pan.Channel with
          | some err => ⟨t6, .returned (some err), ipv6addr⟩
          | none =>
            let t7 := t6 ++ [Step.programPanId]
            match d.SKSREG "S3".toList pan.PanID with
            | some err => ⟨t7, .returned (some err), ipv6addr⟩
            | none =>
              let t8 := t7 ++ [Step.resolveAddress]
              let r := d.SKLL64 pan.Addr
              match r.2 with
              | some err => ⟨t8, .returned (some err), r.1⟩
              | none =>
                let t9 := t8 ++ [Step.join]
                match d.SKJOIN r.1 with
                | some err => ⟨t9, .returned (some err), r.1⟩
                | none => ⟨t9, .returned none, r.1⟩

/-! ## Concrete inputs -/

/-- The schedule `0,30 * * * *` on instants counted in nanoseconds: the next
half-hour boundary strictly after `t`. -/
def everyHalfHour (t : Time) : Time := (t / 1800000000000 + 1) * 1800000000000

/-- A sample that carries only a timestamp and a cumulative reading. -/
def reading (t : Time) (cumulative : Flt) : HemsData :=
  { DateTime := t
    CumulativePowerConsumption := cumulative
    PowerConsumptionPerUnitTime := .fin 0 0
    InstantaneousPowerConsumption := 0
    Current := .fin 0 0
    RphaseCurrent := .fin 0 0
    TpahseCurrent := .fin 0 0
    PowerFactor := .fin 0 0 }

/-- The sample `s` with its windowed delta set to `d`. -/
def withDelta (s : HemsData) (d : Flt) : HemsData := { s with PowerConsumptionPerUnitTime := d }

/-- A controller that holds the baseline reading 100.0 kWh and waits for the
boundary at 1800 s. -/
def afterBaseline : HemsDataController :=
  { previousData := some (reading 1000000000000 (f32 100 1))
    nextCronTime := 1800000000000
    hemsDataHandler := none }

/-- The handler applied to the samples of a list, one after the other, from a
controller; the value is the last controller and the samples as reported. -/
def handleAll (cronNext : Time → Time) :
    HemsDataController → List HemsData → Option (HemsDataController × List HemsData)
  | c, [] => some (c, [])
  | c, s :: rest =>
    match HemsDataHandler cronNext c (some s) with
    | none => none
    | some (c1, s1) =>
      match handleAll cronNext c1 rest with
      | none => none
      | some (c2, out) => some (c2, s1 :: out)

/-- A controller that starts without a previous sample, waiting for the
boundary at 1800 s. -/
def fresh : HemsDataController :=
  { previousData := none
    nextCronTime := 1800000000000
    hemsDataHandler := none }

/-- Eight leading fields of an `ERXUDP` event line, the eighth being `0024`,
followed by the payload `res`. -/
def erxudp (res : String) : GoString :=
  ("ERXUDP FE80:0000:0000:0000:021C:6400:030C:12A4 FE80:0000:0000:0000:021D:1291:0000:0574 " ++
    "0E1A 0E1A 001C6400030C12A4 1 0024 " ++ res).toList

/-- The end-to-end response: source object `028801`, service code `72`, then
`D7` (1), `E1` (`01`), `E0` (1234), `E7` (500), `E8` (20, 15). -/
def endToEnd : GoString :=
  erxudp "1081000102880105FF017205D70101E10101E004000004D2E704000001F4E8040014000F"

/-- A port on which writes succeed and the read ends after `lines`. -/
def quietPort (lines : List GoString) : Port := { writeErr := none, lines := lines }

/-- A device whose serial line cannot be opened; the later answers are those
it would give on an open port. -/
def unopenable : DongleCalls :=
  { OpenPort := some "open /dev/ttyUSB0: no such file or directory"
    SKVER := ("1.2.8".toList, none)
    SKSETPWD := fun _ => none
    SKSETRBID := fun _ => none
    SKSCAN := fun _ => .ok ⟨"21".toList, "09".toList, "8888".toList,
      "001D129012345678".toList, "E1".toList, "00AABBCC".toList⟩
    SKSREG := fun _ _ => none
    SKLL64 := fun _ => ("FE80:0000:0000:0000:021D:1290:1234:5678".toList, none)
    SKJOIN := fun _ => none }

/-! ## Building a response -/

/-- The upper-case hexadecimal digit of value `d`. -/
def hexChar (d : Nat) : Char := if d < 10 then Char.ofNat (48 + d) else Char.ofNat (55 + d)

/-- The `n`-digit upper-case hexadecimal numeral of `v` (of `v` modulo `16^n`),
most significant digit first. -/
def hexDigits : Nat → Nat → GoString
  | 0, _ => []
  | n + 1, v => hexChar (v / 16 ^ n % 16) :: hexDigits n v

/-- One property on the wire: the code `epc`, the count of payload bytes as
two hexadecimal digits, and the payload `edt` (two characters a byte). -/
def encodeProperty (p : GoString × GoString) : GoString :=
  p.1 ++ hexDigits 2 (p.2.length / 2) ++ p.2

/-- A property list on the wire. -/
def encodeProperties (ps : List (GoString × GoString)) : GoString :=
  (ps.map encodeProperty).flatten

/-- A property that can be put on the wire: a code of one byte and a payload
of whole bytes, at most 255 of them. -/
def WellFormed (p : GoString × GoString) : Prop :=
  p.1.length = 2 ∧ p.2.length % 2 = 0 ∧ p.2.length / 2 < 256

instance (p : GoString × GoString) : Decidable (WellFormed p) := by
  unfold WellFormed
  infer_instance

/-- The unit table as the specification states it: code and multiplier. -/
def unitTable : List (GoString × Flt) :=
  [("00".toList, f32 1 1), ("01".toList, f32 1 10), ("02".toList, f32 1 100),
   ("03".toList, f32 1 1000), ("04".toList, f32 1 10000), ("0A".toList, f32 10 1),
   ("0B".toList, f32 100 1), ("0C".toList, f32 1000 1), ("0D".toList, f32 10000 1)]

/-- The effect of one well-formed property on the locals of the walk. -/
def stepProperty (s : WalkState) (p : GoString × GoString) : WalkState :=
  applyProperty p.1 p.2 { s with pos := s.pos + 4 + p.2.length }

/-- Whether a property is the unit (`E1`) or the cumulative energy (`E0`). -/
def isEnergyProperty (p : GoString × GoString) : Bool :=
  decide (p.1 = "E1".toList) || decide (p.1 = "E0".toList)

/-! ## controller/HemsDataController.go: the collection loop -/

/-- A goroutine started by `fetch`: the instant it was started, the deadline
of the context it was given, and the instant its `Fetch` returned, if it has. -/
structure FetchTask where
  started : Time
  deadline : Time
  finished : Option Time
  deriving DecidableEq

/-- The control loop of `doCollect` with what it waits on: the clock, the
deadline of the context held in the variable `cctx`, the number of values
buffered in `sync` (capacity 2), whether a tick is buffered in `t.C`
(capacity 1) and when the ticker fires next, the goroutines started so far,
whether the loop is blocked in the send `sync <- "fetch"`, and the error the
loop has left with (`none` while it runs). -/
structure CollectLoop where
  refreshSecond : Time
  now : Time
  cctx : Time
  sync : Nat
  tick : Bool
  nextTick : Time
  tasks : List FetchTask
  blocked : Bool
  err : Option String
  deriving DecidableEq

/-- The method `HemsDataController.fetch`: a context that expires after twice
the refresh interval, a goroutine running `Fetch` with it, and the context
returned to the caller, who stores it in `cctx`. -/
def fetch (s : CollectLoop) : CollectLoop :=
  { s with
    cctx := s.now + s.refreshSecond * 2
    tasks := s.tasks ++ [⟨s.now, s.now + s.refreshSecond * 2, none⟩] }

/-- The part of `doCollect` before the loop, run at the instant `now`: the
first call of `fetch`, then the ticker, which fires first one refresh interval
later. (The assignment to `controller.nextCronTime` before them touches nothing
the loop waits on.) -/
def doCollectStart (refreshSecond now : Time) : CollectLoop :=
  fetch
    { refreshSecond := refreshSecond
      now := now
      cctx := now
      sync := 0
      tick := false
      nextTick := now + refreshSecond
      tasks := []
      blocked := false
      err := none }

/-- What can happen next: one of the three cases of the `select` is taken,
time passes until an instant, or the `Fetch` of a goroutine returns. -/
inductive LoopEvent where
  | recvSync
  | recvTick
  | recvDone
  | wait (untilTime : Time)
  | finish (i : Nat)
  deriving DecidableEq

/-- Time passes until `t`: when the ticker is due by then, a tick is buffered
(one at most) and the ticker is set to its next period after `t`. -/
def passTime (s : CollectLoop) (t : Time) : CollectLoop :=
  if s.nextTick ≤ t then
    { s with
      now := t
      tick := true
      nextTick := s.nextTick + s.refreshSecond * ((t - s.nextTick) / s.refreshSecond + 1) }
  else { s with now := t }

/-- One event on the loop; `none` when the event cannot happen in the state.
A case of the `select` can be taken when the loop runs and its channel is
ready: `sync` holds a value, `t.C` holds a tick, the deadline of `cctx` has
passed. The bodies are those of `doCollect`: `case <-sync` calls `fetch` and
overwrites `cctx`; `case <-t.C` sends on `sync` (and blocks when it is full);
`case <-cctx.Done()` sets the error and leaves the loop. The return of a
`Fetch` touches none of the loop's variables. -/
def loopStep (s : CollectLoop) : LoopEvent → Option CollectLoop
  | .recvSync =>
    if s.err = none ∧ s.blocked = false ∧ 0 < s.sync then
      some (fetch { s with sync := s.sync - 1 })
    else none
  | .recvTick =>
    if s.err = none ∧ s.blocked = false ∧ s.tick = true then
      if s.sync < 2 then some { s with tick := false, sync := s.sync + 1 }
      else some { s with tick := false, blocked := true }
    else none
  | .recvDone =>
    if s.err = none ∧ s.blocked = false ∧ s.cctx ≤ s.now then
      some { s with err := some "read from dongle is timeout." }
    else none
  | .wait t => if s.now ≤ t then some (passTime s t) else none
  | .finish i =>
    match s.tasks.get? i with
    | some task =>
      if task.finished = none then
        some { s with tasks := s.tasks.set i { task with finished := some s.now } }
      else none
    | none => none

/-- A run of the loop: the events of a list, one after the other. -/
def runLoop : CollectLoop → List LoopEvent → Option CollectLoop
  | s, [] => some s
  | s, e :: es =>
    match loopStep s e with
    | none => none
    | some s1 => runLoop s1 es

/-- The events of the `k`-th refresh interval when nothing delays the loop and
no `Fetch` returns: the loop sleeps in the `select` until the ticker fires,
takes the tick, then takes the value it has just sent on `sync`. -/
def promptRound (refreshSecond start : Time) (k : Nat) : List LoopEvent :=
  [.wait (start + refreshSecond * (k + 1)), .recvTick, .recvSync]

/-- The events of the first `n` refresh intervals of such a run. -/
def promptSchedule (refreshSecond start : Time) : Nat → List LoopEvent
  | 0 => []
  | n + 1 => promptSchedule refreshSecond start n ++ promptRound refreshSecond start n

/-- The loop at the end of the `n`-th refresh interval of such a run. -/
def afterRounds (refreshSecond start : Time) (n : Nat) : CollectLoop :=
  { refreshSecond := refreshSecond
    now := start + refreshSecond * n
    cctx := start + refreshSecond * n + refreshSecond * 2
    sync := 0
    tick := false
    nextTick := start + refreshSecond * (n + 1)
    tasks := (List.range (n + 1)).map fun (i : Nat) =>
      ⟨start + refreshSecond * (i : Int), start + refreshSecond * (i : Int) + refreshSecond * 2,
        none⟩
    blocked := false
    err := none }

/-- The loop after the sleep of the next refresh interval: the tick is
buffered. -/
def afterWait (refreshSecond start : Time) (n : Nat) : CollectLoop :=
  { afterRounds refreshSecond start n with
    now := start + refreshSecond * (n + 1)
    tick := true
    nextTick := start + refreshSecond * (n + 2) }

/-- The loop after it has taken that tick: one value is buffered in `sync`. -/
def afterTick (refreshSecond start : Time) (n : Nat) : CollectLoop :=
  { afterWait refreshSecond start n with tick := false, sync := 1 }

/-- The refresh interval of the default configuration (`REFRESH_SECONDS` = 5),
in nanoseconds. -/
def defaultRefresh : Time := 5000000000

/-- A payload with the valid signature whose first property has the length
byte `ZZ`. -/
def stalling : GoString := erxudp "1081000102880105FF017201E0ZZ00000000"

/-! ## Supporting lemmas -/

/-- More fuel does not change a walk that has ended. -/
theorem propertyWalk_done_add (res : GoString) (s1 : WalkState) :
    ∀ (n k : Nat) (s : WalkState),
      propertyWalk n res s = .done s1 → propertyWalk (n + k) res s = .done s1 := by
  intro n
  induction n with
  | zero => intro k s h; simp [propertyWalk] at h
  | succ n ih =>
    intro k s h
    rw [Nat.add_right_comm]
    unfold propertyWalk at h ⊢
    split
    · rename_i hlt
      rw [if_pos hlt] at h
      cases hw : walkStep res s with
      | none => rw [hw] at h; simp at h
      | some s2 =>
        rw [hw] at h
        exact ih k s2 h
    · rename_i hlt
      rw [if_neg hlt] at h
      exact h

/-- A run of `Fetch` on a response line with nine fields, the eighth `0024`,
a matching signature and a walk that ends in `s`: the callback receives the
sample built from the locals of the walk (or nil, when the context is done). -/
theorem Fetch_of_walk (fuel : Nat) (r : GoString) (ctxDone : Bool) (now : Time)
    (s : WalkState)
    (hlen : (splitSpace r).length = 9)
    (hport : (splitSpace r).getD 7 [] = "0024".toList)
    (hseoj : goSlice ((splitSpace r).getD 8 []) 8 14 = some "028801".toList)
    (hesv : goSlice ((splitSpace r).getD 8 []) 20 22 = some "72".toList)
    (hwalk : propertyWalk fuel ((splitSpace r).getD 8 []) WalkState.init = .done s) :
    Fetch fuel r none ctxDone now =
      .returned [if ctxDone then none else some (CreateHemsData now
        (binary32.mul (binary32.ofInt s.cumulative_power_consumption_base) s.unitnum)
        s.instantaneous_power_consumption
        s.instantaneous_current_r_phase s.instantaneous_current_t_phase)] none := by
  unfold Fetch
  simp only [hlen, hport, hseoj, hesv, hwalk, ne_eq, not_true_eq_false, if_false, and_self,
    if_true]
  cases ctxDone <;> simp

/-- Reading back an upper-case hexadecimal digit gives its value. -/
theorem digitVal_hexChar : ∀ d, d < 16 → digitVal (hexChar d) = some d := by decide

/-- The digit loop reads an `n`-digit numeral of `v` back as `v` modulo `16^n`,
appended to what it has read before. -/
theorem parseDigits_hexDigits (n : Nat) :
    ∀ (v acc : Nat), parseDigits 16 (hexDigits n v) acc = some (acc * 16 ^ n + v % 16 ^ n) := by
  induction n with
  | zero => intro v acc; simp [hexDigits, parseDigits, Nat.mod_one]
  | succ n ih =>
    intro v acc
    have hd : v / 16 ^ n % 16 < 16 := Nat.mod_lt _ (by norm_num)
    simp only [hexDigits, parseDigits, digitVal_hexChar _ hd, hd, if_true, ih]
    congr 1
    rw [Nat.mod_pow_succ]
    ring

/-- An `n`-digit numeral has `n` characters. -/
theorem length_hexDigits (n v : Nat) : (hexDigits n v).length = n := by
  induction n with
  | zero => rfl
  | succ n ih => simp [hexDigits, ih]

/-- The length byte of a property is read back as the count it encodes. -/
theorem ParseUint_hexDigits_two (n : Nat) (h : n < 256) :
    ParseUint (hexDigits 2 n) 16 0 = some n := by
  have hne : hexDigits 2 n ≠ [] := by simp [hexDigits]
  have hmod : n % 16 ^ 2 = n := Nat.mod_eq_of_lt (by norm_num; exact h)
  have hlt : n < 2 ^ effBits 0 := by
    have : (256 : Nat) ≤ 2 ^ effBits 0 := by decide
    omega
  simp only [ParseUint, hne, if_false, parseDigits_hexDigits, zero_mul, zero_add, hmod, hlt,
    if_true]

/-- Slicing out the middle of a string that is given in three pieces. -/
theorem goSlice_of_append (res a b c : GoString) (lo hi : Nat) (h : res = a ++ b ++ c)
    (hlo : lo = a.length) (hhi : hi = lo + b.length) : goSlice res lo hi = some b := by
  subst h hlo hhi
  simp [goSlice]

/-- The dispatch on the property code does not move the cursor. -/
theorem applyProperty_pos (epc edt : GoString) (s : WalkState) :
    (applyProperty epc edt s).pos = s.pos := by
  unfold applyProperty
  repeat' split
  all_goals rfl

/-- One iteration with the cursor on a well-formed property: no slice is out of
range, and the locals change as `stepProperty` says. -/
theorem walkStep_encodeProperty (before rest : GoString) (p : GoString × GoString)
    (hp : WellFormed p) (s : WalkState) (hs : s.pos = before.length) :
    walkStep (before ++ encodeProperty p ++ rest) s = some (stepProperty s p) := by
  obtain ⟨h1, h2, h3⟩ := hp
  have hk : p.2.length / 2 * 2 = p.2.length := by omega
  have e1 : goSlice (before ++ encodeProperty p ++ rest) s.pos (s.pos + 2) = some p.1 :=
    goSlice_of_append _ before p.1 (hexDigits 2 (p.2.length / 2) ++ p.2 ++ rest) _ _
      (by simp [encodeProperty, List.append_assoc]) hs (by rw [h1])
  have e2 : goSlice (before ++ encodeProperty p ++ rest) (s.pos + 2) (s.pos + 4) =
      some (hexDigits 2 (p.2.length / 2)) :=
    goSlice_of_append _ (before ++ p.1) (hexDigits 2 (p.2.length / 2)) (p.2 ++ rest) _ _
      (by simp [encodeProperty, List.append_assoc]) (by simp [hs, h1])
      (by rw [length_hexDigits])
  have e3 : goSlice (before ++ encodeProperty p ++ rest) (s.pos + 4)
      (s.pos + 4 + p.2.length / 2 * 2) = some p.2 :=
    goSlice_of_append _ (before ++ p.1 ++ hexDigits 2 (p.2.length / 2)) p.2 rest _ _
      (by simp [encodeProperty, List.append_assoc])
      (by simp [hs, h1, length_hexDigits]) (by rw [hk])
  rw [hk] at e3
  simp only [walkStep, e1, e2, ParseUint_hexDigits_two _ h3, e3, stepProperty, hk]

/-- The walk over a payload that is a list of well-formed properties ends, within
one iteration a property and one more test of the loop condition, with the
locals folded over the list. -/
theorem propertyWalk_encodeProperties (ps : List (GoString × GoString)) :
    (∀ p ∈ ps, WellFormed p) → ∀ (before : GoString) (s : WalkState) (k : Nat),
      s.pos = before.length →
      propertyWalk (k + ps.length + 1) (before ++ encodeProperties ps) s =
        .done (ps.foldl stepProperty s) := by
  induction ps with
  | nil =>
    intro _ before s k hs
    simp [propertyWalk, encodeProperties, hs]
  | cons p ps ih =>
    intro hwf before s k hs
    have hp : WellFormed p := hwf p (List.mem_cons_self _ _)
    have hres : before ++ encodeProperties (p :: ps) =
        before ++ encodeProperty p ++ encodeProperties ps := by
      simp [encodeProperties, List.append_assoc]
    have hlt : s.pos < (before ++ encodeProperty p ++ encodeProperties ps).length := by
      simp only [List.length_append, encodeProperty, hp.1, hs]
      omega
    have hpos : (stepProperty s p).pos = (before ++ encodeProperty p).length := by
      simp only [stepProperty, applyProperty_pos, List.length_append, encodeProperty, hp.1,
        length_hexDigits, hs]
      omega
    have hfuel : k + (p :: ps).length + 1 = (k + ps.length + 1) + 1 := rfl
    rw [hres, hfuel, propertyWalk, if_pos hlt, walkStep_encodeProperty before _ p hp s hs]
    simp only [List.foldl_cons]
    exact ih (fun q hq => hwf q (List.mem_cons_of_mem _ hq)) (before ++ encodeProperty p)
      (stepProperty s p) k hpos

/-- A slice that lies in the first part of a string does not depend on the rest. -/
theorem goSlice_append_left (a b : GoString) (lo hi : Nat) (h : hi ≤ a.length) :
    goSlice (a ++ b) lo hi = goSlice a lo hi := by
  unfold goSlice
  by_cases hlo : lo ≤ hi
  · have h1 : hi ≤ (a ++ b).length := by simp; omega
    simp only [hlo, h1, h, and_self, if_true]
    rw [List.drop_append_of_le_length (by omega), List.take_append_of_le_length]
    simp; omega
  · simp [hlo]

/-- A hexadecimal digit is not a sign character. -/
theorem hexChar_not_sign : ∀ d, d < 16 → hexChar d ≠ '+' ∧ hexChar d ≠ '-' := by decide

/-- A four-byte numeral is read back as its value by `ParseInt(s, 16, 0)`. -/
theorem ParseInt_hexDigits_eight (v : Nat) (hv : v < 2 ^ 32) :
    ParseInt (hexDigits 8 v) 16 0 = some (v : Int) := by
  have hd : v / 16 ^ 7 % 16 < 16 := Nat.mod_lt _ (by norm_num)
  obtain ⟨hplus, hminus⟩ := hexChar_not_sign _ hd
  have hmod : v % 16 ^ 8 = v := Nat.mod_eq_of_lt (by norm_num at hv ⊢; exact hv)
  have hcut : v < 2 ^ (effBits 0 - 1) := by
    have : (2 : Nat) ^ 32 ≤ 2 ^ (effBits 0 - 1) := by decide
    omega
  have hp := parseDigits_hexDigits 8 v 0
  rw [zero_mul, zero_add, hmod] at hp
  rw [show hexDigits 8 v = hexChar (v / 16 ^ 7 % 16) :: hexDigits 7 v from rfl] at hp ⊢
  simp only [ParseInt, hplus, hminus, or_self, if_false, hp, hcut, if_true, reduceCtorEq,
    decide_False, Bool.false_eq_true]

/-- The property `E1` with a code of the table sets the multiplier and leaves the
raw cumulative value. -/
theorem stepProperty_unit (s : WalkState) (c : GoString) (mult : Flt)
    (hc : (c, mult) ∈ unitTable) :
    (stepProperty s ("E1".toList, c)).unitnum = mult ∧
    (stepProperty s ("E1".toList, c)).cumulative_power_consumption_base =
      s.cumulative_power_consumption_base := by
  simp only [unitTable, List.mem_cons, Prod.mk.injEq, List.mem_singleton, List.not_mem_nil,
    or_false] at hc
  rcases hc with h | h | h | h | h | h | h | h | h <;> obtain ⟨rfl, rfl⟩ := h <;>
    exact ⟨rfl, rfl⟩

/-- The property `E0` with a four-byte payload sets the raw cumulative value and
leaves the multiplier. -/
theorem stepProperty_energy (s : WalkState) (v : Nat) (hv : v < 2 ^ 32) :
    (stepProperty s ("E0".toList, hexDigits 8 v)).unitnum = s.unitnum ∧
    (stepProperty s ("E0".toList, hexDigits 8 v)).cumulative_power_consumption_base = v := by
  have h1 : ("E0".toList = "D7".toList) = False := by decide
  have h2 : ("E0".toList = "E1".toList) = False := by decide
  simp only [stepProperty, applyProperty, h1, h2, if_false, if_true,
    ParseInt_hexDigits_eight v hv, and_self]

/-- A property other than `E1` and `E0` changes neither the multiplier nor the
raw cumulative value. -/
theorem stepProperty_other (s : WalkState) (p : GoString × GoString)
    (h1 : p.1 ≠ "E1".toList) (h0 : p.1 ≠ "E0".toList) :
    (stepProperty s p).unitnum = s.unitnum ∧
    (stepProperty s p).cumulative_power_consumption_base =
      s.cumulative_power_consumption_base := by
  simp only [stepProperty, applyProperty, h1, h0, if_false]
  repeat' split
  all_goals exact ⟨rfl, rfl⟩

/-- Properties other than `E1` and `E0` change neither the multiplier nor the raw
cumulative value. -/
theorem foldl_stepProperty_other (ps : List (GoString × GoString)) :
    (∀ p ∈ ps, p.1 ≠ "E1".toList ∧ p.1 ≠ "E0".toList) → ∀ s : WalkState,
      (ps.foldl stepProperty s).unitnum = s.unitnum ∧
      (ps.foldl stepProperty s).cumulative_power_consumption_base =
        s.cumulative_power_consumption_base := by
  induction ps with
  | nil => intro _ s; exact ⟨rfl, rfl⟩
  | cons p ps ih =>
    intro h s
    have hp := h p (List.mem_cons_self _ _)
    have := ih (fun q hq => h q (List.mem_cons_of_mem _ hq)) (stepProperty s p)
    have h2 := stepProperty_other s p hp.1 hp.2
    simp only [List.foldl_cons]
    exact ⟨this.1.trans h2.1, this.2.trans h2.2⟩

/-- A four-digit pattern with the top bit set is a range error for
`ParseInt(s, 16, 16)`. -/
theorem ParseInt_hexDigits_four_top_bit (p : Nat) (hlo : 2 ^ 15 ≤ p) (hhi : p < 2 ^ 16) :
    ParseInt (hexDigits 4 p) 16 16 = none := by
  have hd : p / 16 ^ 3 % 16 < 16 := Nat.mod_lt _ (by norm_num)
  obtain ⟨hplus, hminus⟩ := hexChar_not_sign _ hd
  have hmod : p % 16 ^ 4 = p := Nat.mod_eq_of_lt (by norm_num at hhi ⊢; exact hhi)
  have hcut : ¬ p < 2 ^ (effBits 16 - 1) := by
    have : (2 : Nat) ^ (effBits 16 - 1) = 2 ^ 15 := by decide
    omega
  have hp := parseDigits_hexDigits 4 p 0
  rw [zero_mul, zero_add, hmod] at hp
  rw [show hexDigits 4 p = hexChar (p / 16 ^ 3 % 16) :: hexDigits 3 p from rfl] at hp ⊢
  simp only [ParseInt, hplus, hminus, or_self, if_false, hp, hcut, reduceCtorEq,
    decide_False, Bool.false_eq_true]

/-- A line of nine fields, the eighth `0024`, whose payload is at least 22
characters long and does not carry the signature `028801` / `72`: the callback
is called once, with nil, and `Fetch` returns nil. -/
theorem Fetch_signature_mismatch (fuel : Nat) (r : GoString) (ctxDone : Bool) (now : Time)
    (hlen : (splitSpace r).length = 9)
    (hport : (splitSpace r).getD 7 [] = "0024".toList)
    (hsize : 22 ≤ ((splitSpace r).getD 8 []).length)
    (hsig : ¬ (goSlice ((splitSpace r).getD 8 []) 8 14 = some "028801".toList ∧
      goSlice ((splitSpace r).getD 8 []) 20 22 = some "72".toList)) :
    Fetch fuel r none ctxDone now = .returned [none] none := by
  have h1 : goSlice ((splitSpace r).getD 8 []) 8 (8 + 6) =
      some ((((splitSpace r).getD 8 []).drop 8).take 6) := by
    simp only [goSlice]; rw [if_pos ⟨by omega, by omega⟩]
  have h2 : goSlice ((splitSpace r).getD 8 []) 20 (20 + 2) =
      some ((((splitSpace r).getD 8 []).drop 20).take 2) := by
    simp only [goSlice]; rw [if_pos ⟨by omega, by omega⟩]
  rw [show (14 : Nat) = 8 + 6 from rfl, show (22 : Nat) = 20 + 2 from rfl, h1, h2] at hsig
  simp only [Option.some.injEq] at hsig
  unfold Fetch
  simp only [hlen, hport, h1, h2, ne_eq, not_true_eq_false, if_false, hsig]

/-- What a property does to the multiplier and the raw cumulative value depends
on those two locals only. -/
theorem stepProperty_congr (p : GoString × GoString) (s t : WalkState)
    (hu : s.unitnum = t.unitnum)
    (hb : s.cumulative_power_consumption_base = t.cumulative_power_consumption_base) :
    (stepProperty s p).unitnum = (stepProperty t p).unitnum ∧
    (stepProperty s p).cumulative_power_consumption_base =
      (stepProperty t p).cumulative_power_consumption_base := by
  simp only [stepProperty, applyProperty]
  repeat' split
  all_goals simp only [hu, hb, and_self]

/-- The multiplier and the raw cumulative value after a walk are those after the
`E1` and `E0` properties alone. -/
theorem foldl_stepProperty_filter (ps : List (GoString × GoString)) :
    ∀ s t : WalkState, s.unitnum = t.unitnum →
      s.cumulative_power_consumption_base = t.cumulative_power_consumption_base →
      (ps.foldl stepProperty s).unitnum =
        ((ps.filter isEnergyProperty).foldl stepProperty t).unitnum ∧
      (ps.foldl stepProperty s).cumulative_power_consumption_base =
        ((ps.filter isEnergyProperty).foldl stepProperty t).cumulative_power_consumption_base := by
  induction ps with
  | nil => intro s t hu hb; exact ⟨hu, hb⟩
  | cons p ps ih =>
    intro s t hu hb
    by_cases hp : isEnergyProperty p = true
    · rw [List.filter_cons_of_pos hp]
      simp only [List.foldl_cons]
      have h := stepProperty_congr p s t hu hb
      exact ih _ _ h.1 h.2
    · rw [List.filter_cons_of_neg hp]
      simp only [List.foldl_cons]
      have hne : p.1 ≠ "E1".toList ∧ p.1 ≠ "E0".toList := by
        simp only [isEnergyProperty, Bool.or_eq_true, decide_eq_true_eq, not_or] at hp
        exact hp
      have h := stepProperty_other s p hne.1 hne.2
      exact ih _ _ (h.1.trans hu) (h.2.trans hb)

/-- The walk over well-formed properties that are followed by more payload:
after one iteration a property the cursor stands at the start of the rest, with
the locals folded over the properties. -/
theorem propertyWalk_encoded_then (ps : List (GoString × GoString)) :
    (∀ p ∈ ps, WellFormed p) → ∀ (before tail : GoString) (s : WalkState) (k : Nat),
      s.pos = before.length →
      propertyWalk (k + ps.length) (before ++ encodeProperties ps ++ tail) s =
        propertyWalk k (before ++ encodeProperties ps ++ tail) (ps.foldl stepProperty s) ∧
      (ps.foldl stepProperty s).pos = (before ++ encodeProperties ps).length := by
  induction ps with
  | nil =>
    intro _ before tail s k hs
    simp [encodeProperties, hs]
  | cons p ps ih =>
    intro hwf before tail s k hs
    have hp : WellFormed p := hwf p (List.mem_cons_self _ _)
    have hres2 : before ++ encodeProperties (p :: ps) =
        before ++ encodeProperty p ++ encodeProperties ps := by
      simp [encodeProperties, List.append_assoc]
    have hR : before ++ encodeProperty p ++ encodeProperties ps ++ tail =
        before ++ encodeProperty p ++ (encodeProperties ps ++ tail) := by
      simp [List.append_assoc]
    have hlt : s.pos < (before ++ encodeProperty p ++ encodeProperties ps ++ tail).length := by
      simp only [List.length_append, encodeProperty, hp.1, hs]
      omega
    have hstep : walkStep (before ++ encodeProperty p ++ encodeProperties ps ++ tail) s =
        some (stepProperty s p) := by
      rw [hR]
      exact walkStep_encodeProperty before _ p hp s hs
    have hpos : (stepProperty s p).pos = (before ++ encodeProperty p).length := by
      simp only [stepProperty, applyProperty_pos, List.length_append, encodeProperty, hp.1,
        length_hexDigits, hs]
      omega
    have hfuel : k + (p :: ps).length = (k + ps.length) + 1 := rfl
    have h := ih (fun q hq => hwf q (List.mem_cons_of_mem _ hq)) (before ++ encodeProperty p)
      tail (stepProperty s p) k hpos
    rw [hres2]
    refine ⟨?_, h.2⟩
    rw [hfuel, propertyWalk, if_pos hlt, hstep]
    exact h.1

/-- An iteration with the cursor on a truncated property panics. -/
theorem walkStep_truncated (before tail : GoString) (s : WalkState)
    (hs : s.pos = before.length)
    (htail : (0 < tail.length ∧ tail.length < 4) ∨
      ∃ epc n rest, epc.length = 2 ∧ n < 256 ∧ tail = epc ++ hexDigits 2 n ++ rest ∧
        rest.length < n * 2) :
    s.pos < (before ++ tail).length ∧ walkStep (before ++ tail) s = none := by
  rcases htail with ⟨h0, h4⟩ | ⟨epc, n, rest, hepc, hn, rfl, hrest⟩
  · have h2 : goSlice (before ++ tail) (s.pos + 2) (s.pos + 4) = none := by
      simp only [goSlice, List.length_append, hs]
      rw [if_neg (by omega)]
    refine ⟨by simp only [List.length_append, hs]; omega, ?_⟩
    simp only [walkStep, h2]
    cases goSlice (before ++ tail) s.pos (s.pos + 2) <;> rfl
  · have e1 : goSlice (before ++ (epc ++ hexDigits 2 n ++ rest)) s.pos (s.pos + 2) = some epc :=
      goSlice_of_append _ before epc (hexDigits 2 n ++ rest) _ _
        (by simp [List.append_assoc]) hs (by rw [hepc])
    have e2 : goSlice (before ++ (epc ++ hexDigits 2 n ++ rest)) (s.pos + 2) (s.pos + 4) =
        some (hexDigits 2 n) :=
      goSlice_of_append _ (before ++ epc) (hexDigits 2 n) rest _ _
        (by simp [List.append_assoc]) (by simp [hs, hepc]) (by rw [length_hexDigits])
    have e3 : goSlice (before ++ (epc ++ hexDigits 2 n ++ rest)) (s.pos + 4)
        (s.pos + 4 + n * 2) = none := by
      simp only [goSlice, List.length_append, hs, hepc, length_hexDigits]
      rw [if_neg (by omega)]
    refine ⟨by simp only [List.length_append, hs, hepc]; omega, ?_⟩
    simp only [walkStep, e1, e2, ParseUint_hexDigits_two n hn, e3]

/-- Every truncated property block makes `Fetch` panic: after a 24-character
header with the valid signature and any well-formed properties, a remainder of
one to three characters, or a property whose declared length exceeds the bytes
that remain, ends the walk in a slice out of range. -/
theorem Fetch_truncated_panics (fuel : Nat) (now : Time) (ctxDone : Bool) (r hdr : GoString)
    (ps : List (GoString × GoString)) (tail : GoString)
    (hlen : (splitSpace r).length = 9)
    (hport : (splitSpace r).getD 7 [] = "0024".toList)
    (hres : (splitSpace r).getD 8 [] = hdr ++ encodeProperties ps ++ tail)
    (hhdr : hdr.length = 24)
    (hseoj : goSlice hdr 8 14 = some "028801".toList)
    (hesv : goSlice hdr 20 22 = some "72".toList)
    (hwf : ∀ p ∈ ps, WellFormed p)
    (htail : (0 < tail.length ∧ tail.length < 4) ∨
      ∃ epc n rest, epc.length = 2 ∧ n < 256 ∧ tail = epc ++ hexDigits 2 n ++ rest ∧
        rest.length < n * 2)
    (hfuel : ps.length + 1 ≤ fuel) :
    Fetch fuel r none ctxDone now = .panicked := by
  obtain ⟨k, hk⟩ : ∃ k, fuel = (k + 1) + ps.length := ⟨fuel - (ps.length + 1), by omega⟩
  have hw := propertyWalk_encoded_then ps hwf hdr tail WalkState.init (k + 1)
    (by rw [hhdr]; rfl)
  have ht := walkStep_truncated (hdr ++ encodeProperties ps) tail _ hw.2 htail
  have hwalk : propertyWalk fuel ((splitSpace r).getD 8 []) WalkState.init = .panicked := by
    rw [hres, hk, hw.1, propertyWalk, if_pos ht.1, ht.2]
  have hs1 : goSlice ((splitSpace r).getD 8 []) 8 (8 + 6) = some "028801".toList := by
    rw [hres, List.append_assoc, goSlice_append_left _ _ _ _ (by omega), hseoj]
  have hs2 : goSlice ((splitSpace r).getD 8 []) 20 (20 + 2) = some "72".toList := by
    rw [hres, List.append_assoc, goSlice_append_left _ _ _ _ (by omega), hesv]
  unfold Fetch
  simp only [hlen, hport, hs1, hs2, hwalk, ne_eq, not_true_eq_false, if_false, and_self,
    if_true]

/-- A four-digit pattern with the top bit clear is read as its value. -/
theorem ParseInt_hexDigits_four_low (p : Nat) (h : p < 2 ^ 15) :
    ParseInt (hexDigits 4 p) 16 16 = some (p : Int) := by
  have hd : p / 16 ^ 3 % 16 < 16 := Nat.mod_lt _ (by norm_num)
  obtain ⟨hplus, hminus⟩ := hexChar_not_sign _ hd
  have hmod : p % 16 ^ 4 = p := Nat.mod_eq_of_lt (by norm_num at h ⊢; omega)
  have hcut : p < 2 ^ (effBits 16 - 1) := by
    have : (2 : Nat) ^ (effBits 16 - 1) = 2 ^ 15 := by decide
    omega
  have hp := parseDigits_hexDigits 4 p 0
  rw [zero_mul, zero_add, hmod] at hp
  rw [show hexDigits 4 p = hexChar (p / 16 ^ 3 % 16) :: hexDigits 3 p from rfl] at hp ⊢
  simp only [ParseInt, hplus, hminus, or_self, if_false, hp, hcut, if_true, reduceCtorEq,
    decide_False, Bool.false_eq_true]

/-- Every step after `Connect` aborts the handshake: on an opened port, when a
step returns an error and the steps before it (from the version check on)
returned none, `doInit` returns that error and the failed step is the last one
entered. -/
theorem doInit_aborts_at_failure (d : DongleCalls) (ipv6addr pwd rbID : GoString)
    (duration : Int) (e : String) (hopen : d.OpenPort = none) :
    (d.SKVER.2 = some e →
      doInit d ipv6addr pwd rbID duration =
        ⟨[.connect, .version], .returned (some e), ipv6addr⟩) ∧
    (d.SKVER.2 = none → d.SKSETPWD pwd = some e →
      doInit d ipv6addr pwd rbID duration =
        ⟨[.connect, .version, .setPassword], .returned (some e), ipv6addr⟩) ∧
    (d.SKVER.2 = none → d.SKSETPWD pwd = none → d.SKSETRBID rbID = some e →
      doInit d ipv6addr pwd rbID duration =
        ⟨[.connect, .version, .setPassword, .setRouteId], .returned (some e), ipv6addr⟩) ∧
    (d.SKVER.2 = none → d.SKSETPWD pwd = none → d.SKSETRBID rbID = none →
      d.SKSCAN duration = .error e →
      doInit d ipv6addr pwd rbID duration =
        ⟨[.connect, .version, .setPassword, .setRouteId, .scan], .returned (some e),
          ipv6addr⟩) ∧
    (∀ pan, d.SKVER.2 = none → d.SKSETPWD pwd = none → d.SKSETRBID rbID = none →
      d.SKSCAN duration = .ok pan → d.SKSREG "S2".toList pan.Channel = some e →
      doInit d ipv6addr pwd rbID duration =
        ⟨[.connect, .version, .setPassword, .setRouteId, .scan, .programChannel],
          .returned (some e), ipv6addr⟩) ∧
    (∀ pan, d.SKVER.2 = none → d.SKSETPWD pwd = none → d.SKSETRBID rbID = none →
      d.SKSCAN duration = .ok pan → d.SKSREG "S2".toList pan.Channel = none →
      d.SKSREG "S3".toList pan.PanID = some e →
      doInit d ipv6addr pwd rbID duration =
        ⟨[.connect, .version, .setPassword, .setRouteId, .scan, .programChannel,
          .programPanId], .returned (some e), ipv6addr⟩) ∧
    (∀ pan, d.SKVER.2 = none → d.SKSETPWD pwd = none → d.SKSETRBID rbID = none →
      d.SKSCAN duration = .ok pan → d.SKSREG "S2".toList pan.Channel = none →
      d.SKSREG "S3".toList pan.PanID = none → (d.SKLL64 pan.Addr).2 = some e →
      doInit d ipv6addr pwd rbID duration =
        ⟨[.connect, .version, .setPassword, .setRouteId, .scan, .programChannel,
          .programPanId, .resolveAddress], .returned (some e), (d.SKLL64 pan.Addr).1⟩) ∧
    (∀ pan, d.SKVER.2 = none → d.SKSETPWD pwd = none → d.SKSETRBID rbID = none →
      d.SKSCAN duration = .ok pan → d.SKSREG "S2".toList pan.Channel = none →
      d.SKSREG "S3".toList pan.PanID = none → (d.SKLL64 pan.Addr).2 = none →
      d.SKJOIN (d.SKLL64 pan.Addr).1 = some e →
      doInit d ipv6addr pwd rbID duration =
        ⟨[.connect, .version, .setPassword, .setRouteId, .scan, .programChannel,
          .programPanId, .resolveAddress, .join], .returned (some e),
          (d.SKLL64 pan.Addr).1⟩) := by
  have hp : (Dongle.Connect d).1 = true := by simp only [Dongle.Connect, hopen]
  refine ⟨?_, ?_, ?_, ?_, ?_, ?_, ?_, ?_⟩
  · intro h1; simp only [doInit, hp, h1]; rfl
  · intro h1 h2; simp only [doInit, hp, h1, h2]; rfl
  · intro h1 h2 h3; simp only [doInit, hp, h1, h2, h3]; rfl
  · intro h1 h2 h3 h4; simp only [doInit, hp, h1, h2, h3, h4]; rfl
  · intro pan h1 h2 h3 h4 h5; simp only [doInit, hp, h1, h2, h3, h4, h5]; rfl
  · intro pan h1 h2 h3 h4 h5 h6; simp only [doInit, hp, h1, h2, h3, h4, h5, h6]; rfl
  · intro pan h1 h2 h3 h4 h5 h6 h7; simp only [doInit, hp, h1, h2, h3, h4, h5, h6, h7]; rfl
  · intro pan h1 h2 h3 h4 h5 h6 h7 h8
    simp only [doInit, hp, h1, h2, h3, h4, h5, h6, h7, h8]; rfl

/-- An iteration that leaves the locals as they are, with the cursor inside
the payload, is repeated for ever: the walk does not end, whatever the fuel. -/
theorem propertyWalk_stalls (res : GoString) (s : WalkState) (hstep : walkStep res s = some s)
    (hpos : s.pos < res.length) : ∀ fuel, propertyWalk fuel res s = .outOfFuel := by
  intro fuel
  induction fuel with
  | zero => rfl
  | succ n ih => rw [propertyWalk, if_pos hpos, hstep]; exact ih

/-- A walk that has ended or panicked does the same with more fuel. -/
theorem propertyWalk_add (res : GoString) :
    ∀ (n k : Nat) (s : WalkState),
      propertyWalk n res s ≠ .outOfFuel → propertyWalk (n + k) res s = propertyWalk n res s := by
  intro n
  induction n with
  | zero => intro k s h; exact absurd rfl h
  | succ n ih =>
    intro k s h
    rw [Nat.add_right_comm]
    unfold propertyWalk at h ⊢
    by_cases hlt : s.pos < res.length
    · simp only [hlt, if_true] at h ⊢
      cases hw : walkStep res s with
      | none => rfl
      | some s2 =>
        rw [hw] at h
        exact ih k s2 h
    · simp only [hlt, if_false]

/-- An iteration with the cursor on a property whose length byte does not
parse ends at `continue`: nothing has changed, the cursor included. -/
theorem walkStep_bad_length (before epc pdc rest : GoString) (s : WalkState)
    (hs : s.pos = before.length) (hepc : epc.length = 2) (hpdc : pdc.length = 2)
    (hbad : ParseUint pdc 16 0 = none) :
    s.pos < (before ++ (epc ++ pdc ++ rest)).length ∧
    walkStep (before ++ (epc ++ pdc ++ rest)) s = some s := by
  have e1 : goSlice (before ++ (epc ++ pdc ++ rest)) s.pos (s.pos + 2) = some epc :=
    goSlice_of_append _ before epc (pdc ++ rest) _ _
      (by simp [List.append_assoc]) hs (by rw [hepc])
  have e2 : goSlice (before ++ (epc ++ pdc ++ rest)) (s.pos + 2) (s.pos + 4) = some pdc :=
    goSlice_of_append _ (before ++ epc) pdc rest _ _
      (by simp [List.append_assoc]) (by simp [hs, hepc]) (by rw [hpdc])
  refine ⟨by simp only [List.length_append, hs, hepc]; omega, ?_⟩
  simp only [walkStep, e1, e2, hbad]

/-- Every length byte that does not parse hangs `Fetch`: after a 24-character
header with the valid signature and any well-formed properties, a property
code followed by two characters that are no hexadecimal number keeps the walk
in the same iteration, so `Fetch` does not return within any fuel. -/
theorem Fetch_bad_length_hangs (fuel : Nat) (now : Time) (ctxDone : Bool) (r hdr : GoString)
    (ps : List (GoString × GoString)) (epc pdc rest : GoString)
    (hlen : (splitSpace r).length = 9)
    (hport : (splitSpace r).getD 7 [] = "0024".toList)
    (hres : (splitSpace r).getD 8 [] = hdr ++ encodeProperties ps ++ (epc ++ pdc ++ rest))
    (hhdr : hdr.length = 24)
    (hseoj : goSlice hdr 8 14 = some "028801".toList)
    (hesv : goSlice hdr 20 22 = some "72".toList)
    (hwf : ∀ p ∈ ps, WellFormed p)
    (hepc : epc.length = 2) (hpdc : pdc.length = 2) (hbad : ParseUint pdc 16 0 = none) :
    Fetch fuel r none ctxDone now = .outOfFuel := by
  have hwalk : propertyWalk fuel ((splitSpace r).getD 8 []) WalkState.init = .outOfFuel := by
    rw [hres]
    by_cases hf : ps.length ≤ fuel
    · obtain ⟨k, hk⟩ : ∃ k, fuel = k + ps.length := ⟨fuel - ps.length, by omega⟩
      have hw := propertyWalk_encoded_then ps hwf hdr (epc ++ pdc ++ rest) WalkState.init k
        (by rw [hhdr]; rfl)
      have hb := walkStep_bad_length (hdr ++ encodeProperties ps) epc pdc rest _ hw.2 hepc
        hpdc hbad
      rw [hk, hw.1]
      exact propertyWalk_stalls _ _ hb.2 hb.1 k
    · by_contra hne
      have hadd := propertyWalk_add (hdr ++ encodeProperties ps ++ (epc ++ pdc ++ rest)) fuel
        (ps.length - fuel) WalkState.init hne
      have hw := propertyWalk_encoded_then ps hwf hdr (epc ++ pdc ++ rest) WalkState.init 0
        (by rw [hhdr]; rfl)
      have hb := walkStep_bad_length (hdr ++ encodeProperties ps) epc pdc rest _ hw.2 hepc
        hpdc hbad
      rw [show fuel + (ps.length - fuel) = 0 + ps.length by omega, hw.1] at hadd
      exact hne hadd.symm
  have hs1 : goSlice ((splitSpace r).getD 8 []) 8 (8 + 6) = some "028801".toList := by
    rw [hres, List.append_assoc, goSlice_append_left _ _ _ _ (by omega), hseoj]
  have hs2 : goSlice ((splitSpace r).getD 8 []) 20 (20 + 2) = some "72".toList := by
    rw [hres, List.append_assoc, goSlice_append_left _ _ _ _ (by omega), hesv]
  unfold Fetch
  simp only [hlen, hport, hs1, hs2, hwalk, ne_eq, not_true_eq_false, if_false, and_self,
    if_true]

/-- A run over two lists of events is the run over the first followed by the
run over the second. -/
theorem runLoop_append (s : CollectLoop) (es fs : List LoopEvent) :
    runLoop s (es ++ fs) = (runLoop s es).bind fun s1 => runLoop s1 fs := by
  induction es generalizing s with
  | nil => rfl
  | cons e es ih =>
    simp only [List.cons_append, runLoop]
    cases loopStep s e with
    | none => rfl
    | some s1 => exact ih s1

/-- With no case of the `select` ready, time passes until the ticker fires. -/
theorem loopStep_afterRounds (R start : Time) (hR : 0 < R) (n : Nat) :
    loopStep (afterRounds R start n) (.wait (start + R * (n + 1))) =
      some (afterWait R start n) := by
  have h1 : start + R * n ≤ start + R * (n + 1) := by nlinarith
  have h2 : start + R * ((n : Int) + 1) + R * 1 = start + R * (n + 2) := by ring
  simp only [loopStep, afterRounds, passTime, afterWait, h1, if_true, le_refl, sub_self,
    Int.zero_ediv, zero_add, h2]

/-- The tick is taken and a value is sent on `sync`. -/
theorem loopStep_afterWait (R start : Time) (n : Nat) :
    loopStep (afterWait R start n) .recvTick = some (afterTick R start n) := by
  simp [loopStep, afterWait, afterTick, afterRounds]

/-- The value is taken from `sync`: a further fetch is started and its context
replaces the one in `cctx`. -/
theorem loopStep_afterTick (R start : Time) (n : Nat) :
    loopStep (afterTick R start n) .recvSync = some (afterRounds R start (n + 1)) := by
  have h1 : start + R * ((n : Int) + 1) + R * 2 = start + R * ((n + 1 : Nat) : Int) + R * 2 := by
    push_cast; ring
  have h2 : start + R * ((n : Int) + 2) = start + R * (((n + 1 : Nat) : Int) + 1) := by
    push_cast; ring
  simp only [loopStep, afterTick, afterWait, afterRounds, fetch, and_self, Nat.lt_one_iff,
    if_true, Nat.sub_self, zero_lt_one, Nat.lt_irrefl, Nat.succ_pos, List.range_succ (n + 1),
    List.map_append, List.map_cons, List.map_nil, Option.some.injEq, CollectLoop.mk.injEq,
    true_and, and_true]
  refine ⟨?_, h1, h2, ?_⟩
  · push_cast; ring
  · push_cast; rfl

/-- Undelayed and with no `Fetch` returning, the loop is in the state
`afterRounds` at the end of every refresh interval. -/
theorem runLoop_promptSchedule (R start : Time) (hR : 0 < R) (n : Nat) :
    runLoop (doCollectStart R start) (promptSchedule R start n) =
      some (afterRounds R start n) := by
  induction n with
  | zero =>
    simp [runLoop, promptSchedule, doCollectStart, fetch, afterRounds, List.range_succ]
  | succ n ih =>
    simp only [promptSchedule, promptRound, runLoop_append, ih, Option.some_bind, runLoop,
      loopStep_afterRounds R start hR n, loopStep_afterWait, loopStep_afterTick]

/-- In such a run the loop never leaves and the deadline of the context in
`cctx` is never reached: after every event the error is nil and the clock is
before that deadline. -/
theorem runLoop_prefix_promptSchedule (R start : Time) (hR : 0 < R) (n : Nat) :
    ∀ es, es <+: promptSchedule R start n →
      ∃ s, runLoop (doCollectStart R start) es = some s ∧ s.err = none ∧ s.now < s.cctx := by
  induction n with
  | zero =>
    intro es hes
    have : es = [] := List.prefix_nil.mp hes
    subst this
    refine ⟨_, rfl, rfl, ?_⟩
    simp only [doCollectStart, fetch]
    linarith
  | succ n ih =>
    intro es hes
    have hrun := runLoop_promptSchedule R start hR n
    have hsplit : promptSchedule R start (n + 1) =
        promptSchedule R start n ++ [.wait (start + R * (n + 1))] ++ [.recvTick] ++
          [.recvSync] := by
      simp [promptSchedule, promptRound]
    rw [hsplit, List.prefix_concat_iff, List.prefix_concat_iff, List.prefix_concat_iff] at hes
    rcases hes with rfl | rfl | rfl | hes
    · refine ⟨afterRounds R start (n + 1), ?_, rfl, ?_⟩
      · simp only [runLoop_append, hrun, Option.some_bind, runLoop,
          loopStep_afterRounds R start hR n, loopStep_afterWait, loopStep_afterTick]
      · simp only [afterRounds]; linarith
    · refine ⟨afterTick R start n, ?_, rfl, ?_⟩
      · simp only [runLoop_append, hrun, Option.some_bind, runLoop,
          loopStep_afterRounds R start hR n, loopStep_afterWait]
      · simp only [afterTick, afterWait, afterRounds]; linarith
    · refine ⟨afterWait R start n, ?_, rfl, ?_⟩
      · simp only [runLoop_append, hrun, Option.some_bind, runLoop,
          loopStep_afterRounds R start hR n]
      · simp only [afterWait, afterRounds]; linarith
    · exact ih es hes

/-- The deadline in `cctx` is not tied to the fetch it was made for: when the
loop is kept from running for twice the refresh interval, the timeout case is
ready and, taken, ends the session, although the only fetch has returned. -/
theorem doCollect_times_out_after_finished_fetch :
    runLoop (doCollectStart defaultRefresh 0)
        [.finish 0, .wait (defaultRefresh * 2), .recvDone] =
      some { refreshSecond := defaultRefresh
             now := defaultRefresh * 2
             cctx := defaultRefresh * 2
             sync := 0
             tick := true
             nextTick := defaultRefresh * 3
             tasks := [⟨0, defaultRefresh * 2, some 0⟩]
             blocked := false
             err := some "read from dongle is timeout." } := by
  decide

/-! ## Decoding a response -/

/-- C1 fails on a short payload: the line has nine fields, the eighth being
`0024`, and the payload `10810001FFFFFF05FF01` carries the source object
`FFFFFF`, not `028801`; the slice `res[20:22]` is out of range and `Fetch`
panics instead of calling back with nil, whatever the fuel, the context and the
clock. The same happens on a payload too short to hold a source object. -/
theorem Fetch_short_payload_panics (fuel : Nat) (ctxDone : Bool) (now : Time) :
    (splitSpace (erxudp "10810001FFFFFF05FF01")).length = 9 ∧
    (splitSpace (erxudp "10810001FFFFFF05FF01")).getD 7 [] = "0024".toList ∧
    goSlice ((splitSpace (erxudp "10810001FFFFFF05FF01")).getD 8 []) 8 14 =
      some "FFFFFF".toList ∧
    Fetch fuel (erxudp "10810001FFFFFF05FF01") none ctxDone now = .panicked ∧
    Fetch fuel (erxudp "1081") none ctxDone now = .panicked := by
  refine ⟨by decide, by decide, by decide, ?_, ?_⟩ <;> rfl

/-- C2 fails: with a valid signature, a property `E0` that declares four bytes
when one remains makes `res[pos+4 : pos+4+8]` panic, and a payload that ends
after the property code makes `res[pos+2 : pos+4]` panic; no sample, partial or
not, is delivered. -/
theorem Fetch_truncated_property_panics (fuel : Nat) (ctxDone : Bool) (now : Time) :
    Fetch (fuel + 1) (erxudp "1081000102880105FF017201E00400") none ctxDone now = .panicked ∧
    Fetch (fuel + 1) (erxudp "1081000102880105FF017201E0") none ctxDone now = .panicked := by
  constructor <;> rfl

/-! ## The windowed delta -/

/-- C3, as the code has it: for every controller that holds a previous sample
and every sample whose timestamp is strictly after `nextCronTime`, the handler
sets the delta of the sample to its cumulative reading minus the previous one
(a `float32` subtraction), stores the sample as the previous one, hands it to
the registered handler and sets `nextCronTime` to the schedule's next instant
after the sample's timestamp, which lies strictly after that timestamp for
every schedule whose `Next` does. For every sample stamped exactly
`nextCronTime` the handler does none of this: it reports on the sample the
delta of the previous sample and leaves `previousData` and `nextCronTime` as
they are. -/
theorem HemsDataHandler_after_boundary (cronNext : Time → Time) (c : HemsDataController)
    (prev s : HemsData) (hprev : c.previousData = some prev) :
    (c.nextCronTime < s.DateTime →
      HemsDataHandler cronNext c (some s) =
        some ({ previousData := some (withDelta s
                  (binary32.sub s.CumulativePowerConsumption prev.CumulativePowerConsumption))
                nextCronTime := cronNext s.DateTime
                hemsDataHandler := c.hemsDataHandler.map (·.Update (some (withDelta s
                  (binary32.sub s.CumulativePowerConsumption
                    prev.CumulativePowerConsumption)))) },
              withDelta s
                (binary32.sub s.CumulativePowerConsumption prev.CumulativePowerConsumption)) ∧
        ((∀ t, t < cronNext t) → s.DateTime < cronNext s.DateTime)) ∧
    (s.DateTime = c.nextCronTime →
      HemsDataHandler cronNext c (some s) =
        some ({ previousData := c.previousData
                nextCronTime := c.nextCronTime
                hemsDataHandler := c.hemsDataHandler.map
                  (·.Update (some (withDelta s prev.PowerConsumptionPerUnitTime))) },
              withDelta s prev.PowerConsumptionPerUnitTime)) := by
  refine ⟨fun hafter => ⟨?_, fun h => h _⟩, fun heq => ?_⟩
  · simp only [HemsDataHandler, hprev, hafter, if_true, withDelta]
  · have h : ¬ c.nextCronTime < s.DateTime := by rw [heq]; exact lt_irrefl _
    simp only [HemsDataHandler, hprev, h, if_false, withDelta]

/-- The boundary theorem at the baseline controller: a sample of 102.5 kWh one
second after the boundary gets the delta 2.5 kWh and advances the boundary; a
sample of 102.5 kWh stamped on the boundary gets the previous delta 0 and
leaves the controller as it is. -/
theorem HemsDataHandler_after_boundary_witness :
    afterBaseline.previousData = some (reading 1000000000000 (f32 100 1)) ∧
    afterBaseline.nextCronTime < (reading 1801000000000 (f32 1025 10)).DateTime ∧
    binary32.sub (f32 1025 10) (f32 100 1) = f32 25 10 ∧
    HemsDataHandler everyHalfHour afterBaseline (some (reading 1801000000000 (f32 1025 10))) =
      some ({ previousData := some (withDelta (reading 1801000000000 (f32 1025 10))
                (binary32.sub (f32 1025 10) (f32 100 1)))
              nextCronTime := everyHalfHour 1801000000000
              hemsDataHandler := none },
            withDelta (reading 1801000000000 (f32 1025 10))
              (binary32.sub (f32 1025 10) (f32 100 1))) ∧
    (reading 1800000000000 (f32 1025 10)).DateTime = afterBaseline.nextCronTime ∧
    HemsDataHandler everyHalfHour afterBaseline (some (reading 1800000000000 (f32 1025 10))) =
      some ({ previousData := afterBaseline.previousData
              nextCronTime := afterBaseline.nextCronTime
              hemsDataHandler := none },
            withDelta (reading 1800000000000 (f32 1025 10)) (.fin 0 0)) :=
  ⟨rfl, by decide, by decide,
    ((HemsDataHandler_after_boundary everyHalfHour afterBaseline
      (reading 1000000000000 (f32 100 1)) (reading 1801000000000 (f32 1025 10))
      rfl).1 (by decide)).1,
    rfl,
    (HemsDataHandler_after_boundary everyHalfHour afterBaseline
      (reading 1000000000000 (f32 100 1)) (reading 1800000000000 (f32 1025 10))
      rfl).2 rfl⟩

/-- C3 fails at equality: a sample stamped exactly `nextCronTime` (so at or
after the boundary; 102.5 kWh against the previous 100.0 kWh) gets the previous
delta `0`, not `2.5`; the previous sample is not replaced and `nextCronTime`
is not advanced. -/
theorem HemsDataHandler_at_boundary_not_recomputed :
    afterBaseline.previousData = some (reading 1000000000000 (f32 100 1)) ∧
    afterBaseline.nextCronTime ≤ (reading 1800000000000 (f32 1025 10)).DateTime ∧
    HemsDataHandler everyHalfHour afterBaseline (some (reading 1800000000000 (f32 1025 10))) =
      some (afterBaseline, withDelta (reading 1800000000000 (f32 1025 10)) (.fin 0 0)) ∧
    Flt.fin 0 0 ≠ binary32.sub (f32 1025 10) (f32 100 1) ∧
    afterBaseline.previousData ≠ some (reading 1800000000000 (f32 1025 10)) ∧
    afterBaseline.nextCronTime ≠ everyHalfHour 1800000000000 := by
  decide

/-- C4, as the code has it: for every controller that holds a previous sample
and every sample whose timestamp is before `nextCronTime`, the handler reports
on the sample the delta of the previous sample and leaves `previousData` and
`nextCronTime` as they are. So after a baseline of 100.0 kWh and a sample of
102.5 kWh stamped strictly after the boundary (delta 2.5), a sample of
103.0 kWh stamped before the next boundary reports the delta 2.5. -/
theorem HemsDataHandler_before_boundary (cronNext : Time → Time) (c : HemsDataController)
    (prev s : HemsData) (hprev : c.previousData = some prev)
    (hbefore : s.DateTime < c.nextCronTime) :
    HemsDataHandler cronNext c (some s) =
      some ({ previousData := c.previousData
              nextCronTime := c.nextCronTime
              hemsDataHandler := c.hemsDataHandler.map
                (·.Update (some (withDelta s prev.PowerConsumptionPerUnitTime))) },
            withDelta s prev.PowerConsumptionPerUnitTime) ∧
    ∀ (b : Time) (s0 s1 s2 : HemsData),
      s0.CumulativePowerConsumption = f32 100 1 →
      s1.CumulativePowerConsumption = f32 1025 10 →
      s2.CumulativePowerConsumption = f32 103 1 →
      b < s1.DateTime → s2.DateTime < cronNext s1.DateTime →
      handleAll cronNext { previousData := none, nextCronTime := b, hemsDataHandler := none }
          [s0, s1, s2] =
        some ({ previousData := some (withDelta s1 (f32 25 10))
                nextCronTime := cronNext s1.DateTime
                hemsDataHandler := none },
              [s0, withDelta s1 (f32 25 10), withDelta s2 (f32 25 10)]) := by
  constructor
  · have h : ¬ c.nextCronTime < s.DateTime := not_lt.mpr (le_of_lt hbefore)
    simp only [HemsDataHandler, hprev, h, if_false, withDelta]
  · intro b s0 s1 s2 h0 h1 h2 hb h12
    have h : ¬ cronNext s1.DateTime < s2.DateTime := not_lt.mpr (le_of_lt h12)
    have hsub : binary32.sub (f32 1025 10) (f32 100 1) = f32 25 10 := by decide
    simp only [handleAll, HemsDataHandler, hb, h, if_true, if_false, h0, h1, withDelta,
      Option.map_none', hsub]

/-- The carry-forward theorem at concrete samples: baseline at 1000 s, boundary
at 1800 s, 102.5 kWh at 1801 s, 103.0 kWh at 1900 s. -/
theorem HemsDataHandler_before_boundary_witness :
    (HemsDataHandler everyHalfHour
        { previousData := some (withDelta (reading 1801000000000 (f32 1025 10)) (f32 25 10))
          nextCronTime := 3600000000000
          hemsDataHandler := none }
        (some (reading 1900000000000 (f32 103 1))) =
      some ({ previousData := some (withDelta (reading 1801000000000 (f32 1025 10)) (f32 25 10))
              nextCronTime := 3600000000000
              hemsDataHandler := none },
            withDelta (reading 1900000000000 (f32 103 1)) (f32 25 10))) ∧
    handleAll everyHalfHour fresh
        [reading 1000000000000 (f32 100 1), reading 1801000000000 (f32 1025 10),
          reading 1900000000000 (f32 103 1)] =
      some ({ previousData := some (withDelta (reading 1801000000000 (f32 1025 10)) (f32 25 10))
              nextCronTime := 3600000000000
              hemsDataHandler := none },
            [reading 1000000000000 (f32 100 1),
              withDelta (reading 1801000000000 (f32 1025 10)) (f32 25 10),
              withDelta (reading 1900000000000 (f32 103 1)) (f32 25 10)]) :=
  ⟨(HemsDataHandler_before_boundary everyHalfHour
      { previousData := some (withDelta (reading 1801000000000 (f32 1025 10)) (f32 25 10))
        nextCronTime := 3600000000000
        hemsDataHandler := none }
      (withDelta (reading 1801000000000 (f32 1025 10)) (f32 25 10))
      (reading 1900000000000 (f32 103 1)) rfl (by decide)).1,
   (HemsDataHandler_before_boundary everyHalfHour
      { previousData := some (withDelta (reading 1801000000000 (f32 1025 10)) (f32 25 10))
        nextCronTime := 3600000000000
        hemsDataHandler := none }
      (withDelta (reading 1801000000000 (f32 1025 10)) (f32 25 10))
      (reading 1900000000000 (f32 103 1)) rfl (by decide)).2
      1800000000000 (reading 1000000000000 (f32 100 1)) (reading 1801000000000 (f32 1025 10))
      (reading 1900000000000 (f32 103 1)) rfl rfl rfl (by decide) (by decide)⟩

/-- C4 fails when the second sample is stamped exactly on the boundary: after
the baseline of 100.0 kWh, the sample of 102.5 kWh at the boundary (1800 s)
gets the delta `0` and `nextCronTime` stays at 1800 s. A sample of 103.0 kWh
one second later, before the next boundary of the schedule (3600 s), reports
the recomputed delta 3.0; one stamped before 1800 s reports the delta 0.
Neither reports 2.5. -/
theorem handleAll_sample_on_boundary :
    fresh.nextCronTime ≤ (reading 1800000000000 (f32 1025 10)).DateTime ∧
    (reading 1801000000000 (f32 103 1)).DateTime < everyHalfHour 1800000000000 ∧
    handleAll everyHalfHour fresh
        [reading 1000000000000 (f32 100 1), reading 1800000000000 (f32 1025 10),
          reading 1801000000000 (f32 103 1)] =
      some ({ previousData := some (withDelta (reading 1801000000000 (f32 103 1)) (f32 3 1))
              nextCronTime := 3600000000000
              hemsDataHandler := none },
            [reading 1000000000000 (f32 100 1),
              withDelta (reading 1800000000000 (f32 1025 10)) (.fin 0 0),
              withDelta (reading 1801000000000 (f32 103 1)) (f32 3 1)]) ∧
    handleAll everyHalfHour fresh
        [reading 1000000000000 (f32 100 1), reading 1800000000000 (f32 1025 10),
          reading 1700000000000 (f32 103 1)] =
      some ({ previousData := some (reading 1000000000000 (f32 100 1))
              nextCronTime := 1800000000000
              hemsDataHandler := none },
            [reading 1000000000000 (f32 100 1),
              withDelta (reading 1800000000000 (f32 1025 10)) (.fin 0 0),
              withDelta (reading 1700000000000 (f32 103 1)) (.fin 0 0)]) ∧
    f32 3 1 ≠ f32 25 10 ∧ Flt.fin 0 0 ≠ f32 25 10 := by
  decide

/-! ## A nil sample -/

/-- C5 fails: for every controller, with or without a previous sample, the
handler called with a nil sample does not complete; it panics on a nil
dereference (of `result.DateTime` when a previous sample is held, of
`result.CumulativePowerConsumption` for the log line otherwise). -/
theorem HemsDataHandler_nil_panics (cronNext : Time → Time) (c : HemsDataController) :
    HemsDataHandler cronNext c none = none := by
  unfold HemsDataHandler
  cases c.previousData <;> rfl

/-- C6, as the code has it: the end-to-end response decodes to one sample with
cumulative energy 123.4 kWh, power 500 W, combined current 3.5 A, R phase
2.0 A, T phase 1.5 A (each the nearest `float32`) and power factor 142.9: the
quotient 500 × 1000 / (10 × 35) is rounded to the integer 1429 and then
multiplied by 0.1. -/
theorem Fetch_endToEnd (fuel : Nat) (now : Time) :
    Fetch (6 + fuel) endToEnd none false now =
      .returned [some
        { DateTime := now
          CumulativePowerConsumption := f32 1234 10
          PowerConsumptionPerUnitTime := .fin 0 0
          InstantaneousPowerConsumption := 500
          Current := f32 35 10
          RphaseCurrent := f32 20 10
          TpahseCurrent := f32 15 10
          PowerFactor := f32 1429 10 }] none ∧
    mathRound (binary64.div (binary64.mul (binary64.ofInt 500) (f64 1000 1))
      (binary64.mul (f64 10 1) (binary64.ofInt 35))) = binary64.ofInt 1429 ∧
    binary32.ofFlt (binary64.mul (binary64.ofInt 1429) (f64 1 10)) = f32 1429 10 := by
  refine ⟨?_, by decide, by decide⟩
  have hwalk : propertyWalk 6 ((splitSpace endToEnd).getD 8 []) WalkState.init =
      .done ⟨72, 1, f32 1 10, 1234, 500, 20, 15⟩ := by decide
  rw [Fetch_of_walk (6 + fuel) endToEnd false now _ (by decide) (by decide) (by decide)
    (by decide) (propertyWalk_done_add _ _ 6 fuel _ hwalk)]
  have hc : CreateHemsData 0 (binary32.mul (binary32.ofInt 1234) (f32 1 10)) 500 20 15 =
      { DateTime := 0
        CumulativePowerConsumption := f32 1234 10
        PowerConsumptionPerUnitTime := .fin 0 0
        InstantaneousPowerConsumption := 500
        Current := f32 35 10
        RphaseCurrent := f32 20 10
        TpahseCurrent := f32 15 10
        PowerFactor := f32 1429 10 } := by decide
  simp only [CreateHemsData, HemsData.mk.injEq, true_and] at hc
  simp only [CreateHemsData, Bool.false_eq_true, if_false, hc]

/-- C6 fails in its power factor: the sample decoded from the end-to-end
response carries the power factor 142.9, which is not 1428.6. -/
theorem Fetch_endToEnd_powerFactor :
    Fetch 6 endToEnd none false 0 =
      .returned [some
        { DateTime := 0
          CumulativePowerConsumption := f32 1234 10
          PowerConsumptionPerUnitTime := .fin 0 0
          InstantaneousPowerConsumption := 500
          Current := f32 35 10
          RphaseCurrent := f32 20 10
          TpahseCurrent := f32 15 10
          PowerFactor := f32 1429 10 }] none ∧
    f32 1429 10 ≠ f32 14286 10 := by
  decide

/-- C7 fails for a pattern with the top bit set: `ParseInt(s, 16, 16)` reports
a range error for every four-digit pattern from `8000` to `FFFF`, so the
phase keeps its default. The response whose `E8` payload is `FFF6000F` (R
phase -10, T phase 15) decodes to the raw values 0 and 15: the sample carries
0 A for the R phase, where the signed reading is -1.0 A. -/
theorem Fetch_negative_current :
    (∀ p, 2 ^ 15 ≤ p → p < 2 ^ 16 → ParseInt (hexDigits 4 p) 16 16 = none) ∧
    hexDigits 4 (2 ^ 16 - 10) = "FFF6".toList ∧
    propertyWalk 2 "1081000102880105FF017201E804FFF6000F".toList WalkState.init =
      .done ⟨36, 0, f32 1 1, 0, 0, 0, 15⟩ ∧
    Fetch 2 (erxudp "1081000102880105FF017201E804FFF6000F") none false 0 =
      .returned [some
        { DateTime := 0
          CumulativePowerConsumption := .fin 0 0
          PowerConsumptionPerUnitTime := .fin 0 0
          InstantaneousPowerConsumption := 0
          Current := f32 15 10
          RphaseCurrent := .fin 0 0
          TpahseCurrent := f32 15 10
          PowerFactor := .fin 0 0 }] none ∧
    Flt.fin 0 0 ≠ binary32.mul (binary32.ofInt (-10)) (f32 1 10) := by
  refine ⟨ParseInt_hexDigits_four_top_bit, by decide, by decide, by decide, by decide⟩

/-- C8, as the code has it: take a response line of nine fields, the eighth
`0024`, whose payload is a 24-character header with source object `028801` and
service code `72` followed by well-formed properties, of which exactly one is
`E1`, carrying one of the nine unit codes `c`, and exactly one is `E0`,
carrying the four-byte raw value `v` (in either order, among any other
properties). With fuel for the walk, `Fetch` delivers one sample, and its
cumulative energy is the `float32` product of `v` converted to `float32` and
the multiplier of `c` as a `float32` constant: the conversion, the constant and
the product are each rounded to the nearest `float32`. -/
theorem Fetch_unit_multiplier (fuel : Nat) (now : Time) (r hdr : GoString)
    (ps : List (GoString × GoString)) (c : GoString) (mult : Flt) (v : Nat)
    (hlen : (splitSpace r).length = 9)
    (hport : (splitSpace r).getD 7 [] = "0024".toList)
    (hres : (splitSpace r).getD 8 [] = hdr ++ encodeProperties ps)
    (hhdr : hdr.length = 24)
    (hseoj : goSlice hdr 8 14 = some "028801".toList)
    (hesv : goSlice hdr 20 22 = some "72".toList)
    (hwf : ∀ p ∈ ps, WellFormed p)
    (hcarry : ps.filter isEnergyProperty = [("E1".toList, c), ("E0".toList, hexDigits 8 v)] ∨
      ps.filter isEnergyProperty = [("E0".toList, hexDigits 8 v), ("E1".toList, c)])
    (hc : (c, mult) ∈ unitTable) (hv : v < 2 ^ 32)
    (hfuel : ps.length + 1 ≤ fuel) :
    ∃ m, Fetch fuel r none false now = .returned [some m] none ∧
      m.CumulativePowerConsumption = binary32.mul (binary32.ofInt v) mult := by
  obtain ⟨k, hk⟩ : ∃ k, fuel = k + ps.length + 1 := ⟨fuel - (ps.length + 1), by omega⟩
  have hwalk := propertyWalk_encodeProperties ps hwf hdr WalkState.init k (by rw [hhdr]; rfl)
  rw [← hk, ← hres] at hwalk
  have hs1 : goSlice ((splitSpace r).getD 8 []) 8 14 = some "028801".toList := by
    rw [hres, goSlice_append_left _ _ _ _ (by omega), hseoj]
  have hs2 : goSlice ((splitSpace r).getD 8 []) 20 22 = some "72".toList := by
    rw [hres, goSlice_append_left _ _ _ _ (by omega), hesv]
  refine ⟨_, Fetch_of_walk fuel r false now _ hlen hport hs1 hs2 hwalk, ?_⟩
  have hf := foldl_stepProperty_filter ps WalkState.init WalkState.init rfl rfl
  simp only [CreateHemsData]
  rw [hf.1, hf.2]
  rcases hcarry with h | h <;> rw [h] <;> simp only [List.foldl_cons, List.foldl_nil]
  · have he := stepProperty_energy (stepProperty WalkState.init ("E1".toList, c)) v hv
    have hu := stepProperty_unit WalkState.init c mult hc
    rw [he.1, he.2, hu.1]
  · have he := stepProperty_energy WalkState.init v hv
    have hu := stepProperty_unit (stepProperty WalkState.init ("E0".toList, hexDigits 8 v))
      c mult hc
    rw [hu.1, hu.2, he.2]

/-- The unit-multiplier theorem at the end-to-end response: the unit code `01`
and the raw value 1234 give 1234 × 0.1, the `float32` nearest to 123.4. -/
theorem Fetch_unit_multiplier_witness :
    binary32.mul (binary32.ofInt 1234) (f32 1 10) = f32 1234 10 ∧
    ∃ m, Fetch 6 endToEnd none false 0 = .returned [some m] none ∧
      m.CumulativePowerConsumption = binary32.mul (binary32.ofInt (1234 : Nat)) (f32 1 10) :=
  ⟨by decide,
   Fetch_unit_multiplier 6 0 endToEnd "1081000102880105FF017205".toList
    [("D7".toList, "01".toList), ("E1".toList, "01".toList), ("E0".toList, hexDigits 8 1234),
      ("E7".toList, "000001F4".toList), ("E8".toList, "0014000F".toList)]
    "01".toList (f32 1 10) 1234 (by decide) (by decide) (by decide) (by decide) (by decide)
    (by decide) (by decide) (Or.inl (by decide)) (by decide) (by decide) (by decide)⟩

/-- C8 fails as an exact equality. With the unit code `00` (multiplier 1) and
the raw value 16777217 (`01000001`), the sample carries 16777216: the
conversion of `v` to `float32` keeps 24 bits. With the unit code `04`
(multiplier 0.0001) and the raw value 1234, the sample carries
16562467 / 2^27, which is not 0.1234: neither the constant nor the product is
exact. -/
theorem Fetch_unit_multiplier_not_exact :
    Fetch 3 (erxudp "1081000102880105FF017202E10100E00401000001") none false 0 =
      .returned [some
        { DateTime := 0
          CumulativePowerConsumption := .fin 1 24
          PowerConsumptionPerUnitTime := .fin 0 0
          InstantaneousPowerConsumption := 0
          Current := .fin 0 0
          RphaseCurrent := .fin 0 0
          TpahseCurrent := .fin 0 0
          PowerFactor := .nan }] none ∧
    (Flt.fin 1 24).toRat = some 16777216 ∧
    (Flt.fin 1 24).toRat ≠ some (16777217 * 1) ∧
    Fetch 3 (erxudp "1081000102880105FF017202E10104E004000004D2") none false 0 =
      .returned [some
        { DateTime := 0
          CumulativePowerConsumption := .fin 16562467 (-27)
          PowerConsumptionPerUnitTime := .fin 0 0
          InstantaneousPowerConsumption := 0
          Current := .fin 0 0
          RphaseCurrent := .fin 0 0
          TpahseCurrent := .fin 0 0
          PowerFactor := .nan }] none ∧
    (Flt.fin 16562467 (-27)).toRat ≠ some (1234 * (1 / 10000)) := by
  refine ⟨by decide, ?_, ?_, by decide, ?_⟩ <;> norm_num [Flt.toRat]

/-! ## The serial commands -/

/-- C9 fails: whenever the write succeeds, `SKSREG` returns nil (success),
whatever lines are read afterwards: also when the read ends at once, or after
lines among which there is no `OK`. -/
theorem SKSREG_succeeds_without_OK (k v : GoString) (lines : List GoString) :
    Dongle.SKSREG (quietPort lines) k v = none ∧
    Dongle.SKSREG (quietPort []) k v = none ∧
    "OK".toList ∉ ["SKSREG S2 21".toList, "FAIL ER04".toList] ∧
    Dongle.SKSREG (quietPort ["SKSREG S2 21".toList, "FAIL ER04".toList]) k v = none :=
  ⟨rfl, rfl, by decide, rfl⟩

/-- C10 fails for the first step: when the serial line cannot be opened,
`Connect` returns the error of `OpenPort`, but `doInit` drops it and enters the
next step, the version check, where the write on the port that was never
opened panics. `doInit` neither stops after the failed step nor returns its
error, whatever the open error and whatever the device would answer. -/
theorem doInit_connect_failure_panics (d : DongleCalls) (e : String)
    (ipv6addr pwd rbID : GoString) (duration : Int) :
    (Dongle.Connect { d with OpenPort := some e }).2 = some e ∧
    doInit { d with OpenPort := some e } ipv6addr pwd rbID duration =
      ⟨[.connect, .version], .panicked, ipv6addr⟩ ∧
    unopenable.OpenPort = some "open /dev/ttyUSB0: no such file or directory" ∧
    doInit unopenable ipv6addr pwd rbID duration =
      ⟨[.connect, .version], .panicked, ipv6addr⟩ ∧
    (doInit unopenable ipv6addr pwd rbID duration).outcome ≠
      .returned (some "open /dev/ttyUSB0: no such file or directory") :=
  ⟨rfl, rfl, rfl, rfl, by simp [doInit, Dongle.Connect, unopenable]⟩

/-! ## The collection loop -/

/-- C11 fails: with the default refresh interval of 5 s, take the run in which
nothing delays the loop and no `Fetch` ever returns. At the end of every
refresh interval from the second on, the loop is still running (its error is
nil) although every fetch started two or more intervals earlier is unfinished
and past its deadline of twice the refresh interval: each tick starts a
further fetch whose context replaces the one in `cctx`, so that after every
event of the run the clock is before the only deadline the loop waits for.
The loop sleeps only when no case of the `select` is ready. -/
theorem doCollect_overdue_fetch_not_timed_out (n : Nat) :
    runLoop (doCollectStart defaultRefresh 0) (promptSchedule defaultRefresh 0 (n + 2)) =
      some (afterRounds defaultRefresh 0 (n + 2)) ∧
    (afterRounds defaultRefresh 0 (n + 2)).err = none ∧
    (∀ i : Nat, i ≤ n → ∃ task ∈ (afterRounds defaultRefresh 0 (n + 2)).tasks,
      task.started = defaultRefresh * i ∧
      task.deadline = task.started + defaultRefresh * 2 ∧
      task.finished = none ∧
      task.deadline ≤ (afterRounds defaultRefresh 0 (n + 2)).now) ∧
    (∀ es, es <+: promptSchedule defaultRefresh 0 (n + 2) →
      ∃ s, runLoop (doCollectStart defaultRefresh 0) es = some s ∧
        s.err = none ∧ s.now < s.cctx) ∧
    (∀ k, loopStep (afterRounds defaultRefresh 0 k) .recvSync = none ∧
      loopStep (afterRounds defaultRefresh 0 k) .recvTick = none ∧
      loopStep (afterRounds defaultRefresh 0 k) .recvDone = none) := by
  have hR : (0 : Time) < defaultRefresh := by decide
  refine ⟨runLoop_promptSchedule _ _ hR _, rfl, ?_,
    runLoop_prefix_promptSchedule _ _ hR _, ?_⟩
  · intro i hi
    refine ⟨⟨0 + defaultRefresh * (i : Int), 0 + defaultRefresh * (i : Int) + defaultRefresh * 2,
      none⟩, ?_, by simp, by simp, rfl, ?_⟩
    · simp only [afterRounds, List.mem_map, List.mem_range]
      exact ⟨i, by omega, rfl⟩
    · have hi2 : (i : Int) ≤ (n : Int) := by exact_mod_cast hi
      simp only [afterRounds]
      push_cast
      nlinarith
  · intro k
    simp [loopStep, afterRounds, hR]

/-- C12 fails: on the payload whose first property has the length byte `ZZ`,
the iteration ends at `continue` with the cursor where it was (24, inside the
36 characters), so the walk repeats that iteration for ever: within no fuel
does the walk end or `Fetch` return. -/
theorem Fetch_stalls_on_bad_length (fuel : Nat) (ctxDone : Bool) (now : Time) :
    (splitSpace stalling).getD 8 [] = "1081000102880105FF017201E0ZZ00000000".toList ∧
    goSlice ((splitSpace stalling).getD 8 []) 8 14 = some "028801".toList ∧
    goSlice ((splitSpace stalling).getD 8 []) 20 22 = some "72".toList ∧
    ParseUint "ZZ".toList 16 0 = none ∧
    WalkState.init.pos < ((splitSpace stalling).getD 8 []).length ∧
    walkStep ((splitSpace stalling).getD 8 []) WalkState.init = some WalkState.init ∧
    propertyWalk fuel ((splitSpace stalling).getD 8 []) WalkState.init = .outOfFuel ∧
    Fetch fuel stalling none ctxDone now = .outOfFuel := by
  have hstep : walkStep ((splitSpace stalling).getD 8 []) WalkState.init =
      some WalkState.init := by decide
  have hpos : WalkState.init.pos < ((splitSpace stalling).getD 8 []).length := by decide
  refine ⟨by decide, by decide, by decide, by decide, hpos, hstep,
    propertyWalk_stalls _ _ hstep hpos fuel, ?_⟩
  exact Fetch_bad_length_hangs fuel now ctxDone stalling "1081000102880105FF017201".toList []
    "E0".toList "ZZ".toList "00000000".toList (by decide) (by decide) (by decide) (by decide)
    (by decide) (by decide) (by decide) (by decide) (by decide) (by decide)

end Hems
